import Mathlib

/-!
Verification development for the light-track transportation planner.

The embedding models the planning core (`src/entities/transportation`):
grid-code parsing, distances, greedy trip splitting, vehicle selection and
plan aggregation.  JavaScript numbers are modelled by `ℚ` (exact rational
arithmetic); the Euclidean distance mode involves a square root, so the
standalone `calculateDistance` is modelled over `ℝ`, while the plan builder
takes the configured distance metric as a rational-valued function argument
(instantiated with `manhattanDistance` for the Manhattan mode, which agrees
with `calculateDistance` exactly).  `crypto.randomUUID` is modelled by an
explicit supply `uuidGen : ℕ → String` giving the id of the n-th trip drawn.
-/

namespace LightTrack

/-- Distance metric selector, mirroring `DistanceMode` in `types.ts`. -/
inductive DistanceMode where
  | manhattan
  | euclidean
deriving DecidableEq, Repr

/-- Validated grid cell: code plus 0-indexed column/row, as in `types.ts`. -/
structure GridPoint where
  code : String
  column : ℕ
  row : ℕ
deriving DecidableEq, Repr

/-- Shipment request, mirroring `RequestInput` in `types.ts`. -/
structure RequestInput where
  id : String
  shipperCode : String
  receiverCode : String
  volume : ℚ
  workingHours : ℚ
deriving DecidableEq, Repr

/-- Planner parameters, mirroring `PlannerParameters` in `types.ts`. -/
structure PlannerParameters where
  capacity : ℚ
  loadUnloadRate : ℚ
  cellSize : ℚ
  speed : ℚ
  distanceMode : DistanceMode
  workdayLength : ℚ
deriving DecidableEq, Repr

/-- Per-trip leg distances, mirroring `RouteDistance`. -/
structure RouteDistance where
  toShipper : ℚ
  toReceiver : ℚ
  toDepot : ℚ
  total : ℚ
deriving DecidableEq, Repr

/-- Per-trip time components, mirroring `RouteTiming`. -/
structure RouteTiming where
  travel : ℚ
  loading : ℚ
  unloading : ℚ
  total : ℚ
deriving DecidableEq, Repr

/-- Absolute event times of one trip, mirroring `TripSchedule`. -/
structure TripSchedule where
  startTime : ℚ
  arrivalShipper : ℚ
  departureShipper : ℚ
  arrivalReceiver : ℚ
  departureReceiver : ℚ
  endTime : ℚ
deriving DecidableEq, Repr

/-- One planned trip, mirroring `TripPlan`. -/
structure TripPlan where
  id : String
  requestId : String
  requestLabel : String
  shipperCode : String
  receiverCode : String
  tripNumber : ℕ
  load : ℚ
  distances : RouteDistance
  timing : RouteTiming
  schedule : TripSchedule
  vehicleId : ℕ
  warnings : List String
deriving DecidableEq, Repr

/-- Read-only projection of a vehicle, mirroring `VehicleSchedule`. -/
structure VehicleSchedule where
  vehicleId : ℕ
  trips : List TripPlan
  totalDistance : ℚ
  totalTime : ℚ
deriving DecidableEq, Repr

/-- Aggregate statistics, mirroring `PlanSummary`. -/
structure PlanSummary where
  totalTrips : ℕ
  totalVolume : ℚ
  totalDistance : ℚ
  loadedDistance : ℚ
  emptyDistance : ℚ
  utilization : ℚ
  totalTime : ℚ
  maxCompletionTime : ℚ
  vehiclesRequired : ℕ
deriving DecidableEq, Repr

/-- Full result of a build pass, mirroring `PlanResult`. -/
structure PlanResult where
  trips : List TripPlan
  vehicles : List VehicleSchedule
  summary : PlanSummary
  errors : List String
deriving DecidableEq, Repr

/-- Planning-time vehicle state, mirroring `VehicleState` in the builder. -/
structure VehicleState where
  id : ℕ
  availableTime : ℚ
  trips : List TripPlan
  totalDistance : ℚ
  totalTime : ℚ
deriving DecidableEq, Repr

/-- Grid side length, the `GRID_SIZE` constant of `utils.ts`. -/
def gridSize : ℕ := 6

/-- Code normalization from `utils.ts`: trim surrounding whitespace, then
uppercase, modelled directly on the character list. -/
def normalizeCode (code : String) : String :=
  String.mk ((((code.toList.dropWhile Char.isWhitespace).reverse.dropWhile
    Char.isWhitespace).reverse).map Char.toUpper)

/-- Grid-code parser from `utils.ts`: the normalized code must match the
pattern "letter A–F then digit", and the digit must lie in 1..6; the column
is the letter index (A = 0) and the row is the digit minus one. -/
def parseGridCode (code : String) : Option GridPoint :=
  let normalized := normalizeCode code
  match normalized.toList with
  | [letter, digit] =>
    if 'A' ≤ letter ∧ letter ≤ 'F' ∧ '0' ≤ digit ∧ digit ≤ '9' then
      let column := letter.toNat - 'A'.toNat
      let number := digit.toNat - '0'.toNat
      if number < 1 ∨ number > gridSize then none
      else some { code := normalized, column := column, row := number - 1 }
    else none
  | _ => none

/-- Depot grid point, the constant `depotPoint` of `utils.ts`. -/
def depotPoint : GridPoint :=
  { code := "D5", column := 3, row := 4 }

/-- Distance between grid points from `utils.ts`: Manhattan mode scales the
sum of coordinate deltas by the cell size, Euclidean mode scales the
hypotenuse.  Modelled over `ℝ` because of the square root. -/
noncomputable def calculateDistance (p q : GridPoint) (cellSize : ℚ)
    (mode : DistanceMode) : ℝ :=
  let dx : ℕ := ((p.column : ℤ) - (q.column : ℤ)).natAbs
  let dy : ℕ := ((p.row : ℤ) - (q.row : ℤ)).natAbs
  match mode with
  | DistanceMode.manhattan => (cellSize : ℝ) * ((dx : ℝ) + (dy : ℝ))
  | DistanceMode.euclidean =>
      (cellSize : ℝ) * Real.sqrt ((dx : ℝ) ^ 2 + (dy : ℝ) ^ 2)

/-- Rational-valued Manhattan distance; agrees with `calculateDistance` in
Manhattan mode (`calculateDistance_manhattan_eq`) and is used to instantiate
the distance-function argument of the plan builder. -/
def manhattanDistance (cellSize : ℚ) (p q : GridPoint) : ℚ :=
  cellSize * ((((p.column : ℤ) - (q.column : ℤ)).natAbs : ℚ) +
    (((p.row : ℤ) - (q.row : ℤ)).natAbs : ℚ))

theorem calculateDistance_manhattan_eq (p q : GridPoint) (cellSize : ℚ) :
    calculateDistance p q cellSize DistanceMode.manhattan =
      ((manhattanDistance cellSize p q : ℚ) : ℝ) := by
  simp [calculateDistance, manhattanDistance]

theorem manhattanDistance_nonneg (cellSize : ℚ) (h : 0 ≤ cellSize)
    (p q : GridPoint) : 0 ≤ manhattanDistance cellSize p q := by
  unfold manhattanDistance
  positivity

/-- Iteration bound of the trip-splitting loop: the ceiling of
`remaining / capacity`, computed with the executable rational floor. -/
def splitSteps (capacity remaining : ℚ) : ℕ :=
  (-(Rat.floor (-(remaining / capacity)))).toNat

theorem splitSteps_eq (capacity remaining : ℚ) :
    splitSteps capacity remaining = (⌈remaining / capacity⌉ : ℤ).toNat := by
  unfold splitSteps
  have h1 : Rat.floor (-(remaining / capacity)) = ⌊-(remaining / capacity)⌋ := by
    rw [Rat.floor_def, Rat.floor_def']
  rw [h1, Int.floor_neg, neg_neg]

theorem splitSteps_pos (capacity remaining : ℚ) (hc : 0 < capacity)
    (hr : 0 < remaining) : 1 ≤ splitSteps capacity remaining := by
  rw [splitSteps_eq]
  have hpos : (0 : ℚ) < remaining / capacity := div_pos hr hc
  have h1 : (1 : ℤ) ≤ ⌈remaining / capacity⌉ := Int.one_le_ceil_iff.mpr hpos
  omega

theorem splitSteps_sub_lt (capacity remaining : ℚ) (hc : 0 < capacity)
    (hr : 0 < remaining) :
    splitSteps capacity (remaining - min capacity remaining) <
      splitSteps capacity remaining := by
  rw [splitSteps_eq, splitSteps_eq]
  rcases le_or_lt remaining capacity with hle | hlt
  · have hm : min capacity remaining = remaining := min_eq_right hle
    rw [hm]
    simp only [sub_self, zero_div, Int.ceil_zero, Int.toNat_zero]
    have hpos : (0 : ℚ) < remaining / capacity := div_pos hr hc
    have h1 : (1 : ℤ) ≤ ⌈remaining / capacity⌉ := Int.one_le_ceil_iff.mpr hpos
    omega
  · have hm : min capacity remaining = capacity := min_eq_left hlt.le
    rw [hm]
    have hne : capacity ≠ 0 := ne_of_gt hc
    have heq : (remaining - capacity) / capacity = remaining / capacity - 1 := by
      field_simp
    rw [heq, Int.ceil_sub_one]
    have h1 : (1 : ℚ) < remaining / capacity := (one_lt_div hc).mpr hlt
    have h2 : (1 : ℤ) < ⌈remaining / capacity⌉ := by
      by_contra hcon
      push_neg at hcon
      have := Int.ceil_le.mp hcon
      norm_num at this
      linarith
    omega

/-- Fuelled body of the trip-splitting loop: with fuel left, peel off
`min capacity remaining` while the remainder is positive. -/
def splitLoadsAux : ℕ → ℚ → ℚ → List ℚ
  | 0, _, _ => []
  | Nat.succ fuel, capacity, remaining =>
    if 0 < capacity ∧ 0 < remaining then
      let load := min capacity remaining
      load :: splitLoadsAux fuel capacity (remaining - load)
    else
      []

/-- Chunk loads of the trip-splitting loop of `buildPlan`: repeatedly peel
off `min capacity remaining` until nothing remains; `splitSteps` iterations
always suffice.  The source `while` loop has no capacity guard (a
non-positive capacity would loop forever, a case the spec declares the
caller's responsibility); the embedding stops in that case, and every claim
about the loop assumes a positive capacity. -/
def splitLoads (capacity remaining : ℚ) : List ℚ :=
  splitLoadsAux (splitSteps capacity remaining) capacity remaining

theorem splitLoadsAux_sum (fuel : ℕ) (capacity : ℚ) (hc : 0 < capacity) :
    ∀ remaining : ℚ, 0 ≤ remaining → splitSteps capacity remaining ≤ fuel →
      (splitLoadsAux fuel capacity remaining).sum = remaining := by
  induction fuel with
  | zero =>
    intro r hr hf
    rcases eq_or_lt_of_le hr with heq | hlt
    · rw [splitLoadsAux]
      simp [← heq]
    · exact absurd hf (by
        have := splitSteps_pos capacity r hc hlt
        omega)
  | succ fuel ih =>
    intro r hr hf
    rw [splitLoadsAux]
    by_cases hpos : 0 < r
    · rw [if_pos ⟨hc, hpos⟩]
      simp only [List.sum_cons]
      have hmin : min capacity r ≤ r := min_le_right _ _
      rw [ih (r - min capacity r) (by linarith) (by
        have := splitSteps_sub_lt capacity r hc hpos
        omega)]
      ring
    · rw [if_neg (fun hand => hpos hand.2)]
      have : r = 0 := le_antisymm (not_lt.mp hpos) hr
      simp [this]

theorem splitLoads_sum (capacity remaining : ℚ) (hc : 0 < capacity)
    (hr : 0 ≤ remaining) : (splitLoads capacity remaining).sum = remaining :=
  splitLoadsAux_sum _ capacity hc remaining hr le_rfl

theorem splitLoadsAux_mem (fuel : ℕ) :
    ∀ (capacity remaining l : ℚ), l ∈ splitLoadsAux fuel capacity remaining →
      0 < l ∧ l ≤ capacity := by
  induction fuel with
  | zero =>
    intro c r l hl
    simp [splitLoadsAux] at hl
  | succ fuel ih =>
    intro c r l hl
    rw [splitLoadsAux] at hl
    split at hl
    · next hand =>
      rcases List.mem_cons.mp hl with heq | hmem
      · subst heq
        exact ⟨lt_min hand.1 hand.2, min_le_left _ _⟩
      · exact ih c _ l hmem
    · simp at hl

theorem splitLoads_mem (capacity remaining l : ℚ)
    (hl : l ∈ splitLoads capacity remaining) : 0 < l ∧ l ≤ capacity :=
  splitLoadsAux_mem _ capacity remaining l hl

/-- Fresh vehicle record, mirroring `createVehicle`. -/
def createVehicle (id : ℕ) : VehicleState :=
  { id := id, availableTime := 0, trips := [], totalDistance := 0, totalTime := 0 }

/-- Numerical tolerance of the shift-fit comparison in `selectVehicle`. -/
def epsilonFit : ℚ := 1 / 1000000

/-- Shift-fit test of `selectVehicle`: the vehicle can take a trip of the
given duration without exceeding the workday length plus the tolerance. -/
def vehicleFits (tripDuration workdayLength : ℚ) (v : VehicleState) : Bool :=
  decide (v.availableTime + tripDuration ≤ workdayLength + epsilonFit)

/-- Stable insertion of a vehicle into an availability-sorted list: the new
vehicle goes after every strictly earlier-available vehicle and before the
first vehicle available no earlier (so an equal-availability vehicle already
in the list keeps priority, matching stable-sort semantics). -/
def insertByAvailable (v : VehicleState) : List VehicleState → List VehicleState
  | [] => [v]
  | w :: ws =>
    if w.availableTime < v.availableTime then w :: insertByAvailable v ws
    else v :: w :: ws

/-- Pool sort of `selectVehicle`: ascending by `availableTime`.  The source
uses `Array.prototype.sort` with comparator `a.availableTime - b.availableTime`,
which ECMAScript guarantees to be a stable ascending sort; a stable sort's
output is uniquely determined by the input and the key, and is realized
here by stable insertion sort. -/
def sortByAvailable : List VehicleState → List VehicleState
  | [] => []
  | v :: vs => insertByAvailable v (sortByAvailable vs)

/-- Greedy vehicle selection, mirroring `selectVehicle`: an empty pool gets
vehicle #1; otherwise the pool is sorted ascending by availability and the
first vehicle fitting the trip within the workday (plus tolerance) is
chosen; if none fits, a new vehicle with id = pool size + 1 is appended and
chosen.  Returns the updated pool and the index of the chosen vehicle. -/
def selectVehicle (vehicles : List VehicleState) (tripDuration workdayLength : ℚ) :
    List VehicleState × ℕ :=
  if vehicles.isEmpty then
    ([createVehicle 1], 0)
  else
    let sorted := sortByAvailable vehicles
    match sorted.findIdx? (vehicleFits tripDuration workdayLength) with
    | some i => (sorted, i)
    | none => (sorted ++ [createVehicle (sorted.length + 1)], sorted.length)

/-- Two-digit zero padding used by the decimal formatter. -/
def pad2 (n : ℕ) : String :=
  if n < 10 then "0" ++ toString n else toString n

/-- Model of JavaScript `Number.prototype.toFixed(2)` on exact rationals:
round to the nearest hundredth, ties towards the larger value, then print
with exactly two decimals. -/
def toFixed2 (q : ℚ) : String :=
  let n : ℤ := ⌊q * 100 + 1 / 2⌋
  let sign := if q < 0 then "-" else ""
  let m := n.natAbs
  sign ++ toString (m / 100) ++ "." ++ pad2 (m % 100)

/-- Service-window warning string of `buildPlan` (departure from the
receiver exceeds the customer's working hours). -/
def serviceWindowWarning (departureReceiver workingHours : ℚ) : String :=
  "Работы у клиента превышают рабочее время (" ++ toFixed2 departureReceiver ++
    " ч > " ++ toFixed2 workingHours ++ " ч)."

/-- Shift-length warning string of `buildPlan` (the trip alone exceeds the
workday length). -/
def shiftWarning (tripTotalTime workdayLength : ℚ) : String :=
  "Продолжительность рейса превышает смену (" ++ toFixed2 tripTotalTime ++
    " ч > " ++ toFixed2 workdayLength ++ " ч)."

/-- Leg distances of one trip as computed in `buildPlan`, with `total` the
sum of the three legs. -/
def mkDistances (dist : GridPoint → GridPoint → ℚ) (sp rp : GridPoint) :
    RouteDistance :=
  let toShipper := dist depotPoint sp
  let toReceiver := dist sp rp
  let toDepot := dist rp depotPoint
  { toShipper := toShipper, toReceiver := toReceiver, toDepot := toDepot,
    total := toShipper + toReceiver + toDepot }

/-- Time components of one trip as computed in `buildPlan`: loading and
unloading both take `load * loadUnloadRate`, travel is the three legs at
constant speed, and `total` is their sum. -/
def mkTiming (loadUnloadRate speed load : ℚ) (d : RouteDistance) : RouteTiming :=
  let loadingTime := load * loadUnloadRate
  let unloadingTime := load * loadUnloadRate
  let travelTime := d.toShipper / speed + d.toReceiver / speed + d.toDepot / speed
  { travel := travelTime, loading := loadingTime, unloading := unloadingTime,
    total := travelTime + loadingTime + unloadingTime }

/-- Event times of one trip as computed in `buildPlan`, all offsets from the
start time (the chosen vehicle's availability). -/
def mkSchedule (speed : ℚ) (d : RouteDistance) (tm : RouteTiming)
    (startTime : ℚ) : TripSchedule :=
  { startTime := startTime
    arrivalShipper := startTime + d.toShipper / speed
    departureShipper := startTime + d.toShipper / speed + tm.loading
    arrivalReceiver := startTime + d.toShipper / speed + tm.loading + d.toReceiver / speed
    departureReceiver :=
      startTime + d.toShipper / speed + tm.loading + d.toReceiver / speed + tm.unloading
    endTime := startTime + tm.total }

/-- Warnings attached to one trip in `buildPlan`: a service-window entry
exactly when the departure from the receiver exceeds the request's working
hours, then a shift entry exactly when the trip total time exceeds the
workday length; both comparisons are strict with no tolerance. -/
def tripWarnings (workingHours workdayLength : ℚ) (s : TripSchedule)
    (tm : RouteTiming) : List String :=
  (if s.departureReceiver > workingHours then
    [serviceWindowWarning s.departureReceiver workingHours] else []) ++
  (if tm.total > workdayLength then
    [shiftWarning tm.total workdayLength] else [])

/-- Mutable state of the build pass: the vehicle pool and the global trip
list, in creation order. -/
structure BuildState where
  vehicles : List VehicleState
  trips : List TripPlan
deriving DecidableEq, Repr

/-- Vehicle mutation at the end of the chunk loop: push the trip, advance
the availability to the trip's end time, and accumulate its distance and
time. -/
def assignTrip (v : VehicleState) (trip : TripPlan) : VehicleState :=
  { v with
    trips := v.trips ++ [trip]
    availableTime := trip.schedule.endTime
    totalDistance := v.totalDistance + trip.distances.total
    totalTime := v.totalTime + trip.timing.total }

/-- Body of the trip-splitting loop of `buildPlan` for one load chunk:
compute distances and timing, select a vehicle, schedule the trip from the
vehicle's availability, attach warnings, then push the trip onto the
vehicle and the global list and advance the vehicle's availability to the
trip's end time.  The trip id is drawn from the uuid supply at the current
global trip count. -/
def processChunk (uuidGen : ℕ → String) (dist : GridPoint → GridPoint → ℚ)
    (params : PlannerParameters) (request : RequestInput) (sp rp : GridPoint)
    (st : BuildState) (tripNumber : ℕ) (load : ℚ) : BuildState :=
  let distances := mkDistances dist sp rp
  let timing := mkTiming params.loadUnloadRate params.speed load distances
  let sel := selectVehicle st.vehicles timing.total params.workdayLength
  let vehicle := sel.1.getD sel.2 (createVehicle 0)
  let schedule := mkSchedule params.speed distances timing vehicle.availableTime
  let trip : TripPlan :=
    { id := uuidGen st.trips.length
      requestId := request.id
      requestLabel := request.shipperCode ++ " → " ++ request.receiverCode
      shipperCode := request.shipperCode
      receiverCode := request.receiverCode
      tripNumber := tripNumber
      load := load
      distances := distances
      timing := timing
      schedule := schedule
      vehicleId := vehicle.id
      warnings := tripWarnings request.workingHours params.workdayLength schedule timing }
  { vehicles := sel.1.set sel.2 (assignTrip vehicle trip),
    trips := st.trips ++ [trip] }

/-- Processing of one accepted request in `buildPlan`: re-parse both codes
(skipping the request if either fails, which cannot happen for sanitized
requests), then run the chunk loop over the peeled loads with the 1-based
per-request trip counter. -/
def processRequest (uuidGen : ℕ → String) (dist : GridPoint → GridPoint → ℚ)
    (params : PlannerParameters) (st : BuildState) (request : RequestInput) :
    BuildState :=
  match parseGridCode request.shipperCode, parseGridCode request.receiverCode with
  | some sp, some rp =>
    ((splitLoads params.capacity request.volume).enum).foldl
      (fun s p => processChunk uuidGen dist params request sp rp s (p.1 + 1) p.2) st
  | _, _ => st

/-- Validation pre-pass of `buildPlan` for one request: an error string is
produced when a code is empty, when the volume is non-positive, or when a
code fails to parse; otherwise the request is accepted. -/
def validateRequest (r : RequestInput) : Option String :=
  if r.shipperCode = "" ∨ r.receiverCode = "" then
    some ("Заявка с кодом " ++ r.id ++ " не содержит адресов.")
  else if r.volume ≤ 0 then
    some ("Заявка " ++ r.shipperCode ++ "-" ++ r.receiverCode ++
      " имеет нулевой объём.")
  else if (parseGridCode r.shipperCode).isNone ∨ (parseGridCode r.receiverCode).isNone then
    some ("Заявка " ++ r.shipperCode ++ "-" ++ r.receiverCode ++
      ": неверный код клиента.")
  else
    none

/-- Accepted requests of a batch, in their original relative order. -/
def sanitizedRequests (requests : List RequestInput) : List RequestInput :=
  requests.filter (fun r => (validateRequest r).isNone)

/-- Plan builder, mirroring `buildPlan`: validate requests collecting one
error per rejected request, fold the accepted requests through the
trip-splitting and vehicle-assignment loop, project the vehicle pool to
schedules and aggregate the summary.  The `dist` argument abstracts
`calculateDistance · · params.cellSize params.distanceMode`; for Manhattan
mode it is `manhattanDistance params.cellSize` exactly
(`calculateDistance_manhattan_eq`), while the Euclidean mode's irrational
values are kept abstract.  `uuidGen` supplies `crypto.randomUUID` results
in draw order. -/
def buildPlan (uuidGen : ℕ → String) (dist : GridPoint → GridPoint → ℚ)
    (requests : List RequestInput) (params : PlannerParameters) : PlanResult :=
  let errors := requests.filterMap validateRequest
  let sanitized := sanitizedRequests requests
  let final := sanitized.foldl (processRequest uuidGen dist params)
    { vehicles := [], trips := [] }
  let trips := final.trips
  let vehicleSchedules := final.vehicles.map (fun v =>
    { vehicleId := v.id, trips := v.trips, totalDistance := v.totalDistance,
      totalTime := v.totalTime : VehicleSchedule })
  let totalVolume := (sanitized.map (fun r => r.volume)).sum
  let totalDistance := (trips.map (fun t => t.distances.total)).sum
  let loadedDistance := (trips.map (fun t => t.distances.toReceiver)).sum
  let emptyDistance := totalDistance - loadedDistance
  let totalTime := (trips.map (fun t => t.timing.total)).sum
  let maxCompletionTime := trips.foldl (fun acc t => max acc t.schedule.endTime) 0
  let vehiclesRequired := vehicleSchedules.length
  { trips := trips
    vehicles := vehicleSchedules
    summary :=
      { totalTrips := trips.length
        totalVolume := totalVolume
        totalDistance := totalDistance
        loadedDistance := loadedDistance
        emptyDistance := emptyDistance
        utilization := if totalDistance = 0 then 0 else loadedDistance / totalDistance
        totalTime := totalTime
        maxCompletionTime := maxCompletionTime
        vehiclesRequired := vehiclesRequired }
    errors := errors }

/-- Hours in a day, the `HOURS_IN_DAY` constant of the builder. -/
def hoursInDay : ℚ := 24

/-- Default parameters exported by the builder module. -/
def defaultParameters : PlannerParameters :=
  { capacity := 6
    loadUnloadRate := 1 / 10
    cellSize := 4
    speed := 40
    distanceMode := DistanceMode.manhattan
    workdayLength := hoursInDay }

/-- Placeholder trip used as the default of indexed accesses in concrete
statements. -/
def defaultTrip : TripPlan where
  id := ""
  requestId := ""
  requestLabel := ""
  shipperCode := ""
  receiverCode := ""
  tripNumber := 0
  load := 0
  distances := { toShipper := 0, toReceiver := 0, toDepot := 0, total := 0 }
  timing := { travel := 0, loading := 0, unloading := 0, total := 0 }
  schedule := { startTime := 0, arrivalShipper := 0, departureShipper := 0,
                arrivalReceiver := 0, departureReceiver := 0, endTime := 0 }
  vehicleId := 0
  warnings := []

/-- Membership of an in-range defaulted index access. -/
theorem getD_mem_of_lt {α : Type _} (l : List α) (i : ℕ) (d : α)
    (h : i < l.length) : l.getD i d ∈ l := by
  rw [List.getD_eq_getElem _ _ h]
  exact List.getElem_mem h

/-- Replacing a list entry by its own value leaves the list unchanged. -/
theorem set_getD_self {α : Type _} (l : List α) (i : ℕ) (d : α)
    (h : i < l.length) : l.set i (l.getD i d) = l := by
  apply List.ext_getElem
  · simp
  · intro j h1 h2
    rw [List.getElem_set]
    split
    · next heq => subst heq; rw [List.getD_eq_getElem l d h2]
    · rfl

/-- Characterization of a successful index search: the found index is in
range, its element satisfies the predicate, and no earlier element does. -/
theorem findIdx?_some_spec {α : Type _} (p : α → Bool) (l : List α) (i : ℕ)
    (d : α) (h : l.findIdx? p = some i) :
    i < l.length ∧ p (l.getD i d) = true ∧ ∀ j < i, p (l.getD j d) = false := by
  obtain ⟨hlen, hidx⟩ := List.findIdx?_eq_some_iff_findIdx_eq.mp h
  subst hidx
  refine ⟨hlen, ?_, ?_⟩
  · rw [List.getD_eq_getElem _ _ hlen]
    exact List.findIdx_getElem
  · intro j hj
    rw [List.getD_eq_getElem _ _ (hj.trans hlen)]
    exact List.not_of_lt_findIdx hj

theorem insertByAvailable_perm (v : VehicleState) (l : List VehicleState) :
    (insertByAvailable v l).Perm (v :: l) := by
  induction l with
  | nil => simp [insertByAvailable]
  | cons w ws ih =>
    rw [insertByAvailable]
    split
    · exact (List.Perm.cons w ih).trans (List.Perm.swap v w ws)
    · exact List.Perm.refl _

theorem sortByAvailable_perm (l : List VehicleState) :
    (sortByAvailable l).Perm l := by
  induction l with
  | nil => simp [sortByAvailable]
  | cons v vs ih =>
    rw [sortByAvailable]
    exact (insertByAvailable_perm v (sortByAvailable vs)).trans (ih.cons v)

theorem sortByAvailable_length (l : List VehicleState) :
    (sortByAvailable l).length = l.length :=
  (sortByAvailable_perm l).length_eq

theorem insertByAvailable_sorted (v : VehicleState) (l : List VehicleState)
    (hs : l.Pairwise (fun a b => a.availableTime ≤ b.availableTime)) :
    (insertByAvailable v l).Pairwise (fun a b => a.availableTime ≤ b.availableTime) := by
  induction l with
  | nil => simp [insertByAvailable]
  | cons w ws ih =>
    rw [insertByAvailable]
    rcases List.pairwise_cons.mp hs with ⟨hw, hws⟩
    split
    · next hlt =>
      refine List.pairwise_cons.mpr ⟨?_, ih hws⟩
      intro x hx
      rcases List.mem_cons.mp ((insertByAvailable_perm v ws).mem_iff.mp hx) with h | h
      · subst h; exact le_of_lt hlt
      · exact hw x h
    · next hge =>
      push_neg at hge
      refine List.pairwise_cons.mpr ⟨?_, hs⟩
      intro x hx
      rcases List.mem_cons.mp hx with h | h
      · subst h; exact hge
      · exact hge.trans (hw x h)

theorem sortByAvailable_sorted (l : List VehicleState) :
    (sortByAvailable l).Pairwise (fun a b => a.availableTime ≤ b.availableTime) := by
  induction l with
  | nil => simp [sortByAvailable]
  | cons v vs ih => exact insertByAvailable_sorted v _ ih

/-- Stability of the insertion step, expressed through filtering on one
availability value: inserting a vehicle prepends it to the equal-key class
it belongs to and leaves every class otherwise untouched. -/
theorem insertByAvailable_filter_key (v : VehicleState) (l : List VehicleState)
    (t : ℚ) :
    (insertByAvailable v l).filter (fun w => decide (w.availableTime = t)) =
      (if v.availableTime = t then [v] else []) ++
        l.filter (fun w => decide (w.availableTime = t)) := by
  induction l with
  | nil =>
    simp only [insertByAvailable]
    by_cases hv : v.availableTime = t
    · simp [hv]
    · simp [hv]
  | cons w ws ih =>
    rw [insertByAvailable]
    split
    · next hlt =>
      by_cases hv : v.availableTime = t
      · have hw : ¬ w.availableTime = t := by
          intro hw0
          rw [hw0, hv] at hlt
          exact lt_irrefl _ hlt
        simp [List.filter_cons, hv, hw, ih]
      · by_cases hw : w.availableTime = t
        · simp [List.filter_cons, hv, hw, ih]
        · simp [List.filter_cons, hv, hw, ih]
    · next hge =>
      by_cases hv : v.availableTime = t
      · simp [List.filter_cons, hv]
      · simp [List.filter_cons, hv]

/-- Stability of the pool sort: each equal-availability class appears in the
sorted pool in its original relative order. -/
theorem sortByAvailable_filter_key (l : List VehicleState) (t : ℚ) :
    (sortByAvailable l).filter (fun w => decide (w.availableTime = t)) =
      l.filter (fun w => decide (w.availableTime = t)) := by
  induction l with
  | nil => simp [sortByAvailable]
  | cons v vs ih =>
    rw [sortByAvailable, insertByAvailable_filter_key, ih, List.filter_cons]
    by_cases hv : v.availableTime = t
    · simp [hv]
    · simp [hv]

/-- Characterization of `selectVehicle`: an empty pool yields the fresh
vehicle #1; otherwise either some vehicle of the availability-sorted pool
fits and the first such vehicle (by sorted position) is chosen, or no
vehicle fits and a fresh vehicle with id = pool size + 1 is appended and
chosen. -/
theorem selectVehicle_spec (pool : List VehicleState)
    (tripDuration workdayLength : ℚ) :
    (pool = [] → selectVehicle pool tripDuration workdayLength =
      ([createVehicle 1], 0)) ∧
    (pool ≠ [] →
      (∃ i, selectVehicle pool tripDuration workdayLength = (sortByAvailable pool, i) ∧
        i < (sortByAvailable pool).length ∧
        vehicleFits tripDuration workdayLength
          ((sortByAvailable pool).getD i (createVehicle 0)) = true ∧
        ∀ j < i, vehicleFits tripDuration workdayLength
          ((sortByAvailable pool).getD j (createVehicle 0)) = false) ∨
      ((∀ v ∈ sortByAvailable pool,
          vehicleFits tripDuration workdayLength v = false) ∧
        selectVehicle pool tripDuration workdayLength =
          (sortByAvailable pool ++ [createVehicle (pool.length + 1)], pool.length))) := by
  constructor
  · intro h
    subst h
    rfl
  · intro h
    have hne : ¬ pool.isEmpty = true := by
      simpa [List.isEmpty_iff] using h
    rw [selectVehicle, if_neg hne]
    cases hfind : (sortByAvailable pool).findIdx?
        (vehicleFits tripDuration workdayLength) with
    | some i =>
      left
      obtain ⟨h1, h2, h3⟩ := findIdx?_some_spec _ _ i (createVehicle 0) hfind
      refine ⟨i, ?_, h1, h2, h3⟩
      simp only [hfind]
    | none =>
      right
      refine ⟨fun v hv => List.findIdx?_eq_none_iff.mp hfind v hv, ?_⟩
      simp only [hfind, sortByAvailable_length]

/-- C1: for every trip, vehicle selection follows the stated greedy
procedure — an empty pool creates vehicle #1; otherwise the pool is scanned
in ascending-availability order and the trip goes to the first vehicle with
`availability + tripDuration ≤ workdayLength + 1e-6`; if none qualifies, a
new vehicle with identifier = pool size + 1 is appended and assigned. -/
theorem c1_vehicle_selection_greedy (pool : List VehicleState)
    (tripDuration workdayLength : ℚ) :
    (pool = [] → selectVehicle pool tripDuration workdayLength =
      ([createVehicle 1], 0)) ∧
    (pool ≠ [] →
      (∃ i, selectVehicle pool tripDuration workdayLength = (sortByAvailable pool, i) ∧
        i < (sortByAvailable pool).length ∧
        vehicleFits tripDuration workdayLength
          ((sortByAvailable pool).getD i (createVehicle 0)) = true ∧
        ∀ j < i, vehicleFits tripDuration workdayLength
          ((sortByAvailable pool).getD j (createVehicle 0)) = false) ∨
      ((∀ v ∈ sortByAvailable pool,
          vehicleFits tripDuration workdayLength v = false) ∧
        selectVehicle pool tripDuration workdayLength =
          (sortByAvailable pool ++ [createVehicle (pool.length + 1)], pool.length))) :=
  selectVehicle_spec pool tripDuration workdayLength

/-- Witness for C1 at concrete inputs: the empty pool creates vehicle #1,
and in a pool of two idle-at-20 and idle-at-5 vehicles a one-hour trip with
a 24-hour workday is assigned by the greedy scan. -/
theorem c1_vehicle_selection_greedy_witness :
    (selectVehicle [] 1 24 = ([createVehicle 1], 0)) ∧
    ((∃ i, selectVehicle
        [{ id := 1, availableTime := 20, trips := [], totalDistance := 0, totalTime := 0 },
         { id := 2, availableTime := 5, trips := [], totalDistance := 0, totalTime := 0 }] 1 24 =
          (sortByAvailable
            [{ id := 1, availableTime := 20, trips := [], totalDistance := 0, totalTime := 0 },
             { id := 2, availableTime := 5, trips := [], totalDistance := 0, totalTime := 0 }], i) ∧
        i < (sortByAvailable
            [{ id := 1, availableTime := 20, trips := [], totalDistance := 0, totalTime := 0 },
             { id := 2, availableTime := 5, trips := [], totalDistance := 0, totalTime := 0 }]).length ∧
        vehicleFits 1 24
          ((sortByAvailable
            [{ id := 1, availableTime := 20, trips := [], totalDistance := 0, totalTime := 0 },
             { id := 2, availableTime := 5, trips := [], totalDistance := 0, totalTime := 0 }]).getD i
            (createVehicle 0)) = true ∧
        ∀ j < i, vehicleFits 1 24
          ((sortByAvailable
            [{ id := 1, availableTime := 20, trips := [], totalDistance := 0, totalTime := 0 },
             { id := 2, availableTime := 5, trips := [], totalDistance := 0, totalTime := 0 }]).getD j
            (createVehicle 0)) = false) ∨
      ((∀ v ∈ sortByAvailable
            [{ id := 1, availableTime := 20, trips := [], totalDistance := 0, totalTime := 0 },
             { id := 2, availableTime := 5, trips := [], totalDistance := 0, totalTime := 0 }],
          vehicleFits 1 24 v = false) ∧
        selectVehicle
          [{ id := 1, availableTime := 20, trips := [], totalDistance := 0, totalTime := 0 },
           { id := 2, availableTime := 5, trips := [], totalDistance := 0, totalTime := 0 }] 1 24 =
          (sortByAvailable
            [{ id := 1, availableTime := 20, trips := [], totalDistance := 0, totalTime := 0 },
             { id := 2, availableTime := 5, trips := [], totalDistance := 0, totalTime := 0 }] ++
            [createVehicle 3], 2))) :=
  ⟨(c1_vehicle_selection_greedy [] 1 24).1 rfl,
   (c1_vehicle_selection_greedy _ 1 24).2 (List.cons_ne_nil _ _)⟩

/-- C5: at every vehicle-selection step with a non-empty pool, the scan
order is the pool sorted ascending by availability, ties preserved in the
original relative order (stated through the equal-availability filter), and
the scanned list of `selectVehicle` is exactly that sorted pool (possibly
with the freshly created vehicle appended at the end). -/
theorem c5_scan_order_stable_sorted (pool : List VehicleState)
    (tripDuration workdayLength : ℚ) :
    (sortByAvailable pool).Perm pool ∧
    (sortByAvailable pool).Pairwise (fun a b => a.availableTime ≤ b.availableTime) ∧
    (∀ t : ℚ, (sortByAvailable pool).filter (fun w => decide (w.availableTime = t)) =
      pool.filter (fun w => decide (w.availableTime = t))) ∧
    (pool ≠ [] →
      (selectVehicle pool tripDuration workdayLength).1 = sortByAvailable pool ∨
      (selectVehicle pool tripDuration workdayLength).1 =
        sortByAvailable pool ++ [createVehicle (pool.length + 1)]) := by
  refine ⟨sortByAvailable_perm pool, sortByAvailable_sorted pool,
    fun t => sortByAvailable_filter_key pool t, fun h => ?_⟩
  rcases (selectVehicle_spec pool tripDuration workdayLength).2 h with
    ⟨i, heq, _, _, _⟩ | ⟨_, heq⟩
  · left
    rw [heq]
  · right
    rw [heq]

/-- Witness for C5 at a concrete two-vehicle pool: the scanned list is the
availability-sorted pool. -/
theorem c5_scan_order_stable_sorted_witness :
    (selectVehicle
      [{ id := 1, availableTime := 20, trips := [], totalDistance := 0, totalTime := 0 },
       { id := 2, availableTime := 5, trips := [], totalDistance := 0, totalTime := 0 }] 1 24).1 =
      sortByAvailable
        [{ id := 1, availableTime := 20, trips := [], totalDistance := 0, totalTime := 0 },
         { id := 2, availableTime := 5, trips := [], totalDistance := 0, totalTime := 0 }] ∨
    (selectVehicle
      [{ id := 1, availableTime := 20, trips := [], totalDistance := 0, totalTime := 0 },
       { id := 2, availableTime := 5, trips := [], totalDistance := 0, totalTime := 0 }] 1 24).1 =
      sortByAvailable
        [{ id := 1, availableTime := 20, trips := [], totalDistance := 0, totalTime := 0 },
         { id := 2, availableTime := 5, trips := [], totalDistance := 0, totalTime := 0 }] ++
        [createVehicle 3] :=
  (c5_scan_order_stable_sorted _ 1 24).2.2.2 (List.cons_ne_nil _ _)

/-- C9: Manhattan distance is the scaled sum of absolute coordinate deltas,
Euclidean distance the scaled hypotenuse; both are non-negative for a
positive cell size; and the Manhattan distance between grid codes B3 and E2
at cell size 4 is 16. -/
theorem c9_distance_computation (p q : GridPoint) (cellSize : ℚ)
    (mode : DistanceMode) :
    calculateDistance p q cellSize DistanceMode.manhattan =
      (cellSize : ℝ) * (|(p.column : ℝ) - (q.column : ℝ)| +
        |(p.row : ℝ) - (q.row : ℝ)|) ∧
    calculateDistance p q cellSize DistanceMode.euclidean =
      (cellSize : ℝ) * Real.sqrt (((p.column : ℝ) - (q.column : ℝ)) ^ 2 +
        ((p.row : ℝ) - (q.row : ℝ)) ^ 2) ∧
    (0 < cellSize → 0 ≤ calculateDistance p q cellSize mode) ∧
    (∃ b3 e2, parseGridCode "B3" = some b3 ∧ parseGridCode "E2" = some e2 ∧
      calculateDistance b3 e2 4 DistanceMode.manhattan = 16) := by
  refine ⟨?_, ?_, ?_, ?_⟩
  · simp only [calculateDistance]
    rw [Int.cast_natAbs, Int.cast_natAbs]
    push_cast
    ring
  · simp only [calculateDistance]
    have habs : ∀ z : ℤ, ((z.natAbs : ℝ)) ^ 2 = ((z : ℝ)) ^ 2 := fun z => by
      rw [Int.cast_natAbs, Int.cast_abs, sq_abs]
    rw [habs, habs]
    push_cast
    ring_nf
  · intro hc
    have hc0 : (0 : ℝ) ≤ (cellSize : ℚ) := by exact_mod_cast hc.le
    cases mode with
    | manhattan =>
      simp only [calculateDistance]
      positivity
    | euclidean =>
      simp only [calculateDistance]
      positivity
  · refine ⟨{ code := "B3", column := 1, row := 2 },
      { code := "E2", column := 4, row := 1 }, ?_, ?_, ?_⟩
    · with_unfolding_all decide
    · with_unfolding_all decide
    · simp only [calculateDistance]
      norm_num

/-- Witness for C9: the cell size 4 is positive and the B3 to E2 Manhattan
distance is non-negative. -/
theorem c9_distance_computation_witness :
    (0 : ℚ) < 4 ∧
    0 ≤ calculateDistance { code := "B3", column := 1, row := 2 }
      { code := "E2", column := 4, row := 1 } 4 DistanceMode.manhattan :=
  ⟨by norm_num,
   (c9_distance_computation { code := "B3", column := 1, row := 2 }
     { code := "E2", column := 4, row := 1 } 4 DistanceMode.manhattan).2.2.1
     (by norm_num)⟩

/-- Shape of a trip emitted by the chunk loop for a given request: all
descriptive fields copied from the request, and distances, timing, schedule
and warnings computed by the builder's formulas (the schedule determined by
its own start time, which the builder takes from the assigned vehicle's
availability). -/
def TripMade (dist : GridPoint → GridPoint → ℚ) (params : PlannerParameters)
    (r : RequestInput) (sp rp : GridPoint) (t : TripPlan) : Prop :=
  t.requestId = r.id ∧
  t.requestLabel = r.shipperCode ++ " → " ++ r.receiverCode ∧
  t.shipperCode = r.shipperCode ∧
  t.receiverCode = r.receiverCode ∧
  t.distances = mkDistances dist sp rp ∧
  t.timing = mkTiming params.loadUnloadRate params.speed t.load t.distances ∧
  t.schedule = mkSchedule params.speed t.distances t.timing t.schedule.startTime ∧
  t.warnings = tripWarnings r.workingHours params.workdayLength t.schedule t.timing

/-- Shape of a trip emitted for a request whose codes parse. -/
def TripFromRequest (dist : GridPoint → GridPoint → ℚ)
    (params : PlannerParameters) (r : RequestInput) (t : TripPlan) : Prop :=
  ∃ sp rp, parseGridCode r.shipperCode = some sp ∧
    parseGridCode r.receiverCode = some rp ∧ TripMade dist params r sp rp t

theorem processChunk_trips_eq (g : ℕ → String)
    (dist : GridPoint → GridPoint → ℚ) (params : PlannerParameters)
    (r : RequestInput) (sp rp : GridPoint) (st : BuildState) (n : ℕ) (load : ℚ) :
    ∃ trip : TripPlan,
      (processChunk g dist params r sp rp st n load).trips = st.trips ++ [trip] ∧
      trip.load = load ∧ trip.tripNumber = n ∧ TripMade dist params r sp rp trip := by
  refine ⟨_, rfl, rfl, rfl, ?_⟩
  exact ⟨rfl, rfl, rfl, rfl, rfl, rfl, rfl, rfl⟩

theorem chunkFold_spec (g : ℕ → String) (dist : GridPoint → GridPoint → ℚ)
    (params : PlannerParameters) (r : RequestInput) (sp rp : GridPoint)
    (chunks : List ℚ) :
    ∀ (n : ℕ) (st : BuildState),
      ∃ block : List TripPlan,
        ((List.enumFrom n chunks).foldl
          (fun s p => processChunk g dist params r sp rp s (p.1 + 1) p.2) st).trips =
          st.trips ++ block ∧
        block.map (fun t => t.load) = chunks ∧
        block.map (fun t => t.tripNumber) = List.range' (n + 1) chunks.length ∧
        ∀ t ∈ block, TripMade dist params r sp rp t := by
  induction chunks with
  | nil =>
    intro n st
    exact ⟨[], by simp, rfl, by simp, by simp⟩
  | cons c cs ih =>
    intro n st
    rw [List.enumFrom_cons, List.foldl_cons]
    obtain ⟨trip, htrips, hload, hnum, hmade⟩ :=
      processChunk_trips_eq g dist params r sp rp st (n + 1) c
    obtain ⟨block, hb1, hb2, hb3, hb4⟩ :=
      ih (n + 1) (processChunk g dist params r sp rp st (n + 1) c)
    refine ⟨trip :: block, ?_, ?_, ?_, ?_⟩
    · rw [hb1, htrips, List.append_assoc]
      rfl
    · simp [hload, hb2]
    · simp only [List.map_cons, hnum, hb3, List.length_cons]
      rw [List.range'_succ]
    · intro t ht
      rcases List.mem_cons.mp ht with h | h
      · subst h; exact hmade
      · exact hb4 t h

theorem processRequest_trips_spec (g : ℕ → String)
    (dist : GridPoint → GridPoint → ℚ) (params : PlannerParameters)
    (r : RequestInput) (sp rp : GridPoint)
    (hsp : parseGridCode r.shipperCode = some sp)
    (hrp : parseGridCode r.receiverCode = some rp) (st : BuildState) :
    ∃ block : List TripPlan,
      (processRequest g dist params st r).trips = st.trips ++ block ∧
      block.map (fun t => t.load) = splitLoads params.capacity r.volume ∧
      block.map (fun t => t.tripNumber) =
        List.range' 1 (splitLoads params.capacity r.volume).length ∧
      ∀ t ∈ block, TripMade dist params r sp rp t := by
  rw [processRequest, hsp, hrp]
  rw [List.enum_eq_enumFrom]
  exact chunkFold_spec g dist params r sp rp _ 0 st

theorem validateRequest_eq_none_iff (r : RequestInput) :
    validateRequest r = none ↔
      (r.shipperCode ≠ "" ∧ r.receiverCode ≠ "" ∧ 0 < r.volume ∧
        (parseGridCode r.shipperCode).isSome = true ∧
        (parseGridCode r.receiverCode).isSome = true) := by
  unfold validateRequest
  split_ifs with h1 h2 h3
  · simp only [false_iff]
    intro hcon
    rcases h1 with h | h
    · exact hcon.1 h
    · exact hcon.2.1 h
  · simp only [false_iff]
    intro hcon
    exact absurd h2 (not_le.mpr hcon.2.2.1)
  · simp only [false_iff]
    intro hcon
    rcases h3 with h | h
    · rw [Option.isNone_iff_eq_none] at h
      rw [h] at hcon
      simp at hcon
    · rw [Option.isNone_iff_eq_none] at h
      rw [h] at hcon
      simp at hcon
  · push_neg at h1
    simp only [true_iff]
    push_neg at h3
    refine ⟨h1.1, h1.2, not_le.mp h2, ?_, ?_⟩
    · rcases Option.isNone_iff_eq_none.not.mp h3.1 with _
      cases hx : parseGridCode r.shipperCode with
      | none => exact absurd (by rw [hx]; rfl) h3.1
      | some v => rfl
    · cases hx : parseGridCode r.receiverCode with
      | none => exact absurd (by rw [hx]; rfl) h3.2
      | some v => rfl

theorem sanitized_mem_valid (reqs : List RequestInput) (r : RequestInput)
    (h : r ∈ sanitizedRequests reqs) : r ∈ reqs ∧ validateRequest r = none := by
  unfold sanitizedRequests at h
  have h2 := List.mem_filter.mp h
  exact ⟨h2.1, Option.isNone_iff_eq_none.mp (by simpa using h2.2)⟩

theorem requestFold_trips_from (g : ℕ → String)
    (dist : GridPoint → GridPoint → ℚ) (params : PlannerParameters) :
    ∀ (reqs : List RequestInput) (st : BuildState),
      ∀ t ∈ (reqs.foldl (processRequest g dist params) st).trips,
        t ∈ st.trips ∨ ∃ r ∈ reqs, TripFromRequest dist params r t := by
  intro reqs
  induction reqs with
  | nil =>
    intro st t ht
    exact Or.inl ht
  | cons r rs ih =>
    intro st t ht
    rw [List.foldl_cons] at ht
    rcases ih (processRequest g dist params st r) t ht with hin | ⟨r', hr', hmade⟩
    · by_cases hsp : ∃ sp, parseGridCode r.shipperCode = some sp
      · by_cases hrp : ∃ rp, parseGridCode r.receiverCode = some rp
        · obtain ⟨sp, hsp⟩ := hsp
          obtain ⟨rp, hrp⟩ := hrp
          obtain ⟨block, hb1, _, _, hb4⟩ :=
            processRequest_trips_spec g dist params r sp rp hsp hrp st
          rw [hb1] at hin
          rcases List.mem_append.mp hin with h | h
          · exact Or.inl h
          · exact Or.inr ⟨r, List.mem_cons_self r rs, sp, rp, hsp, hrp, hb4 t h⟩
        · left
          have : processRequest g dist params st r = st := by
            rw [processRequest]
            cases hx : parseGridCode r.shipperCode with
            | none => rfl
            | some sp =>
              cases hy : parseGridCode r.receiverCode with
              | none => rfl
              | some rp => exact absurd ⟨rp, hy⟩ hrp
          rwa [this] at hin
      · left
        have : processRequest g dist params st r = st := by
          rw [processRequest]
          cases hx : parseGridCode r.shipperCode with
          | none => rfl
          | some sp => exact absurd ⟨sp, hx⟩ hsp
        rwa [this] at hin
    · exact Or.inr ⟨r', List.mem_cons_of_mem r hr', hmade⟩

/-- Every trip of a build result comes from one of the accepted requests,
with all its computed fields shaped by the builder's formulas. -/
theorem buildPlan_trips_from (g : ℕ → String)
    (dist : GridPoint → GridPoint → ℚ) (requests : List RequestInput)
    (params : PlannerParameters) :
    ∀ t ∈ (buildPlan g dist requests params).trips,
      ∃ r ∈ sanitizedRequests requests, TripFromRequest dist params r t := by
  intro t ht
  have h := requestFold_trips_from g dist params (sanitizedRequests requests)
    { vehicles := [], trips := [] } t ht
  rcases h with h | h
  · simp at h
  · exact h

/-- Chunk-loop relation under membership: a chain whose links can be
upgraded using facts about the chained elements. -/
theorem chain'_imp_mem {α : Type _} {R S : α → α → Prop} :
    ∀ l : List α, (∀ a ∈ l, ∀ b ∈ l, R a b → S a b) → l.Chain' R → l.Chain' S := by
  intro l
  induction l with
  | nil => intro _ _; exact List.chain'_nil
  | cons a l ih =>
    intro h hc
    cases l with
    | nil => exact List.chain'_singleton a
    | cons b l' =>
      rw [List.chain'_cons] at hc ⊢
      refine ⟨h a (List.mem_cons_self _ _) b
        (List.mem_cons_of_mem _ (List.mem_cons_self _ _)) hc.1, ?_⟩
      exact ih (fun x hx y hy hr => h x (List.mem_cons_of_mem _ hx) y
        (List.mem_cons_of_mem _ hy) hr) hc.2

/-- Chaining invariant of one pool vehicle: its trips chain start-to-end,
each trip ends its own duration after it starts with a non-negative
duration, the availability equals the last trip's end (0 for no trips), and
the first trip starts at 0 (the availability the vehicle was created
with). -/
def VehicleInv (v : VehicleState) : Prop :=
  v.trips.Chain' (fun a b => b.schedule.startTime = a.schedule.endTime) ∧
  (∀ t ∈ v.trips, t.schedule.endTime = t.schedule.startTime + t.timing.total ∧
    0 ≤ t.timing.total) ∧
  v.availableTime = ((v.trips.getLast?).map (fun t => t.schedule.endTime)).getD 0 ∧
  (v.trips.head?.map (fun t => t.schedule.startTime)).getD 0 = 0 ∧
  0 ≤ v.availableTime

/-- Chaining invariant over the whole pool. -/
def PoolChainInv (pool : List VehicleState) : Prop :=
  ∀ v ∈ pool, VehicleInv v

/-- Identifier invariant of the pool: ids are exactly 1..size as a
multiset. -/
def PoolIdsInv (pool : List VehicleState) : Prop :=
  (pool.map (fun v => v.id)).Perm (List.range' 1 pool.length)

theorem createVehicle_inv (k : ℕ) : VehicleInv (createVehicle k) := by
  refine ⟨List.chain'_nil, ?_, rfl, rfl, le_refl 0⟩
  intro t ht
  simp [createVehicle] at ht

theorem selectVehicle_pool_cases (pool : List VehicleState)
    (tripDuration workdayLength : ℚ) :
    (selectVehicle pool tripDuration workdayLength).1 = [createVehicle 1] ∨
    (selectVehicle pool tripDuration workdayLength).1 = sortByAvailable pool ∨
    (selectVehicle pool tripDuration workdayLength).1 =
      sortByAvailable pool ++ [createVehicle (pool.length + 1)] := by
  rcases eq_or_ne pool [] with h | h
  · left
    rw [(selectVehicle_spec pool tripDuration workdayLength).1 h]
  · rcases (selectVehicle_spec pool tripDuration workdayLength).2 h with
      ⟨i, heq, _, _, _⟩ | ⟨_, heq⟩
    · right; left; rw [heq]
    · right; right; rw [heq]

theorem selectVehicle_idx_lt (pool : List VehicleState)
    (tripDuration workdayLength : ℚ) :
    (selectVehicle pool tripDuration workdayLength).2 <
      (selectVehicle pool tripDuration workdayLength).1.length := by
  rcases eq_or_ne pool [] with h | h
  · rw [(selectVehicle_spec pool tripDuration workdayLength).1 h]
    exact Nat.zero_lt_one
  · rcases (selectVehicle_spec pool tripDuration workdayLength).2 h with
      ⟨i, heq, hlt, _, _⟩ | ⟨_, heq⟩
    · rw [heq]
      exact hlt
    · rw [heq]
      simp [sortByAvailable_length]

theorem selectVehicle_chain_inv (pool : List VehicleState)
    (tripDuration workdayLength : ℚ) (h : PoolChainInv pool) :
    PoolChainInv (selectVehicle pool tripDuration workdayLength).1 := by
  rcases selectVehicle_pool_cases pool tripDuration workdayLength with heq | heq | heq
  · rw [heq]
    intro v hv
    rcases List.mem_singleton.mp hv with rfl
    exact createVehicle_inv 1
  · rw [heq]
    intro v hv
    exact h v ((sortByAvailable_perm pool).mem_iff.mp hv)
  · rw [heq]
    intro v hv
    rcases List.mem_append.mp hv with hv | hv
    · exact h v ((sortByAvailable_perm pool).mem_iff.mp hv)
    · rcases List.mem_singleton.mp hv with rfl
      exact createVehicle_inv _

theorem selectVehicle_ids_inv (pool : List VehicleState)
    (tripDuration workdayLength : ℚ) (h : PoolIdsInv pool) :
    PoolIdsInv (selectVehicle pool tripDuration workdayLength).1 := by
  unfold PoolIdsInv at h
  rcases eq_or_ne pool [] with hp | hp
  · rw [(selectVehicle_spec pool tripDuration workdayLength).1 hp]
    subst hp
    simp [PoolIdsInv, createVehicle, List.range'_succ]
  · rcases (selectVehicle_spec pool tripDuration workdayLength).2 hp with
      ⟨i, heq, _, _, _⟩ | ⟨_, heq⟩
    · rw [heq]
      unfold PoolIdsInv
      rw [sortByAvailable_length]
      exact ((sortByAvailable_perm pool).map (fun v => v.id)).trans h
    · rw [heq]
      unfold PoolIdsInv
      have hlen : (sortByAvailable pool ++ [createVehicle (pool.length + 1)]).length =
          pool.length + 1 := by
        simp [sortByAvailable_length]
      rw [hlen, List.map_append]
      have hr : List.range' 1 (pool.length + 1) =
          List.range' 1 pool.length ++ [1 + pool.length] := by
        have := @List.range'_concat 1 1 pool.length
        simpa using this
      rw [hr]
      refine List.Perm.append ?_ ?_
      · exact ((sortByAvailable_perm pool).map (fun v => v.id)).trans h
      · simp [createVehicle, Nat.add_comm]

/-- Stable insertion of a trip into a list ordered by start time. -/
def insertByStart (t : TripPlan) : List TripPlan → List TripPlan
  | [] => [t]
  | u :: us =>
    if u.schedule.startTime < t.schedule.startTime then u :: insertByStart t us
    else t :: u :: us

/-- Stable sort of trips ascending by start time, used to state the
no-double-booking property. -/
def sortTripsByStart : List TripPlan → List TripPlan
  | [] => []
  | t :: ts => insertByStart t (sortTripsByStart ts)

theorem insertByStart_front (t : TripPlan) (l : List TripPlan)
    (h : ∀ u ∈ l, t.schedule.startTime ≤ u.schedule.startTime) :
    insertByStart t l = t :: l := by
  cases l with
  | nil => rfl
  | cons u us =>
    rw [insertByStart, if_neg (not_lt.mpr (h u (List.mem_cons_self _ _)))]

theorem sortTripsByStart_of_sorted (l : List TripPlan)
    (h : l.Pairwise (fun a b => a.schedule.startTime ≤ b.schedule.startTime)) :
    sortTripsByStart l = l := by
  induction l with
  | nil => rfl
  | cons t ts ih =>
    rcases List.pairwise_cons.mp h with ⟨ht, hts⟩
    rw [sortTripsByStart, ih hts, insertByStart_front t ts ht]

theorem mkTiming_total_nonneg (rate speed load : ℚ) (d : RouteDistance)
    (hrate : 0 ≤ rate) (hspeed : 0 ≤ speed) (hload : 0 ≤ load)
    (hd1 : 0 ≤ d.toShipper) (hd2 : 0 ≤ d.toReceiver) (hd3 : 0 ≤ d.toDepot) :
    0 ≤ (mkTiming rate speed load d).total := by
  unfold mkTiming
  have h1 : 0 ≤ d.toShipper / speed := div_nonneg hd1 hspeed
  have h2 : 0 ≤ d.toReceiver / speed := div_nonneg hd2 hspeed
  have h3 : 0 ≤ d.toDepot / speed := div_nonneg hd3 hspeed
  have h4 : 0 ≤ load * rate := mul_nonneg hload hrate
  simp only
  linarith

/-- Invariant preservation when a trip is appended to a vehicle whose
availability the trip starts at. -/
theorem assignTrip_inv (v : VehicleState) (trip : TripPlan)
    (hv : VehicleInv v)
    (hstart : trip.schedule.startTime = v.availableTime)
    (hend : trip.schedule.endTime = trip.schedule.startTime + trip.timing.total)
    (htot : 0 ≤ trip.timing.total) :
    VehicleInv (assignTrip v trip) := by
  obtain ⟨hchain, hdur, havail, hhead, hnn⟩ := hv
  unfold VehicleInv assignTrip
  simp only
  refine ⟨?_, ?_, ?_, ?_, ?_⟩
  · rw [List.chain'_append]
    refine ⟨hchain, List.chain'_singleton _, ?_⟩
    intro x hx y hy
    simp only [List.head?_cons, Option.mem_some_iff] at hy
    subst hy
    rw [hstart, havail]
    rw [Option.mem_def] at hx
    rw [hx]
    rfl
  · intro t ht
    rcases List.mem_append.mp ht with h | h
    · exact hdur t h
    · rcases List.mem_singleton.mp h with rfl
      exact ⟨hend, htot⟩
  · simp only [List.getLast?_append, List.getLast?_singleton,
      Option.or_some, Option.map_some', Option.getD_some]
  · cases hc : v.trips with
    | nil =>
      simp only [List.nil_append, List.head?_cons, Option.map_some', Option.getD_some]
      rw [hstart, havail, hc]
      rfl
    | cons x xs =>
      rw [hc] at hhead
      simp only [List.cons_append, List.head?_cons, Option.map_some',
        Option.getD_some] at hhead ⊢
      exact hhead
  · rw [hend, hstart]
    exact add_nonneg hnn htot

theorem processChunk_chain_inv (g : ℕ → String)
    (dist : GridPoint → GridPoint → ℚ) (params : PlannerParameters)
    (r : RequestInput) (sp rp : GridPoint) (st : BuildState) (n : ℕ) (load : ℚ)
    (hspeed : 0 ≤ params.speed) (hrate : 0 ≤ params.loadUnloadRate)
    (hload : 0 ≤ load) (hdist : ∀ p q, 0 ≤ dist p q)
    (hinv : PoolChainInv st.vehicles) :
    PoolChainInv (processChunk g dist params r sp rp st n load).vehicles := by
  have htot : 0 ≤ (mkTiming params.loadUnloadRate params.speed load
      (mkDistances dist sp rp)).total :=
    mkTiming_total_nonneg _ _ _ _ hrate hspeed hload (hdist _ _) (hdist _ _) (hdist _ _)
  have hselinv := selectVehicle_chain_inv st.vehicles
    (mkTiming params.loadUnloadRate params.speed load (mkDistances dist sp rp)).total
    params.workdayLength hinv
  have hidx := selectVehicle_idx_lt st.vehicles
    (mkTiming params.loadUnloadRate params.speed load (mkDistances dist sp rp)).total
    params.workdayLength
  have hvehmem : (selectVehicle st.vehicles
      (mkTiming params.loadUnloadRate params.speed load (mkDistances dist sp rp)).total
      params.workdayLength).1.getD (selectVehicle st.vehicles
      (mkTiming params.loadUnloadRate params.speed load (mkDistances dist sp rp)).total
      params.workdayLength).2 (createVehicle 0) ∈ (selectVehicle st.vehicles
      (mkTiming params.loadUnloadRate params.speed load (mkDistances dist sp rp)).total
      params.workdayLength).1 := by
    rw [List.getD_eq_getElem _ _ hidx]
    exact List.getElem_mem hidx
  have hveh := hselinv _ hvehmem
  intro v' hv'
  rcases List.mem_or_eq_of_mem_set hv' with h | h
  · exact hselinv v' h
  · subst h
    exact assignTrip_inv _ _ hveh rfl rfl htot

theorem set_assignTrip_ids (l : List VehicleState) (i : ℕ) (hi : i < l.length)
    (t : TripPlan) :
    (l.set i (assignTrip (l.getD i (createVehicle 0)) t)).map (fun v => v.id) =
      l.map (fun v => v.id) := by
  rw [List.map_set]
  have hid : (assignTrip (l.getD i (createVehicle 0)) t).id =
      (l.map (fun v => v.id)).getD i ((createVehicle 0).id) := by
    rw [List.getD_map]
    rfl
  rw [hid, set_getD_self]
  simpa using hi

theorem processChunk_ids_inv (g : ℕ → String)
    (dist : GridPoint → GridPoint → ℚ) (params : PlannerParameters)
    (r : RequestInput) (sp rp : GridPoint) (st : BuildState) (n : ℕ) (load : ℚ)
    (hids : PoolIdsInv st.vehicles) :
    PoolIdsInv (processChunk g dist params r sp rp st n load).vehicles := by
  have hidx := selectVehicle_idx_lt st.vehicles
    (mkTiming params.loadUnloadRate params.speed load (mkDistances dist sp rp)).total
    params.workdayLength
  have hsel := selectVehicle_ids_inv st.vehicles
    (mkTiming params.loadUnloadRate params.speed load (mkDistances dist sp rp)).total
    params.workdayLength hids
  unfold PoolIdsInv at hsel ⊢
  simp only [processChunk]
  rw [set_assignTrip_ids _ _ hidx, List.length_set]
  exact hsel

theorem chunkFold_chain_inv (g : ℕ → String)
    (dist : GridPoint → GridPoint → ℚ) (params : PlannerParameters)
    (r : RequestInput) (sp rp : GridPoint)
    (hspeed : 0 ≤ params.speed) (hrate : 0 ≤ params.loadUnloadRate)
    (hdist : ∀ p q, 0 ≤ dist p q) :
    ∀ chunks : List ℚ, (∀ c ∈ chunks, 0 ≤ c) →
      ∀ (n : ℕ) (st : BuildState), PoolChainInv st.vehicles →
        PoolChainInv (((List.enumFrom n chunks).foldl
          (fun s p => processChunk g dist params r sp rp s (p.1 + 1) p.2) st).vehicles) := by
  intro chunks
  induction chunks with
  | nil =>
    intro _ n st h
    simpa using h
  | cons c cs ih =>
    intro hc n st h
    rw [List.enumFrom_cons, List.foldl_cons]
    exact ih (fun x hx => hc x (List.mem_cons_of_mem _ hx)) (n + 1) _
      (processChunk_chain_inv g dist params r sp rp st (n + 1) c hspeed hrate
        (hc c (List.mem_cons_self _ _)) hdist h)

theorem chunkFold_ids_inv (g : ℕ → String)
    (dist : GridPoint → GridPoint → ℚ) (params : PlannerParameters)
    (r : RequestInput) (sp rp : GridPoint) :
    ∀ (chunks : List ℚ) (n : ℕ) (st : BuildState), PoolIdsInv st.vehicles →
      PoolIdsInv (((List.enumFrom n chunks).foldl
        (fun s p => processChunk g dist params r sp rp s (p.1 + 1) p.2) st).vehicles) := by
  intro chunks
  induction chunks with
  | nil =>
    intro n st h
    simpa using h
  | cons c cs ih =>
    intro n st h
    rw [List.enumFrom_cons, List.foldl_cons]
    exact ih (n + 1) _ (processChunk_ids_inv g dist params r sp rp st (n + 1) c h)

theorem processRequest_chain_inv (g : ℕ → String)
    (dist : GridPoint → GridPoint → ℚ) (params : PlannerParameters)
    (r : RequestInput) (st : BuildState)
    (hspeed : 0 ≤ params.speed) (hrate : 0 ≤ params.loadUnloadRate)
    (hdist : ∀ p q, 0 ≤ dist p q) (h : PoolChainInv st.vehicles) :
    PoolChainInv (processRequest g dist params st r).vehicles := by
  rw [processRequest]
  cases hsp : parseGridCode r.shipperCode with
  | none => exact h
  | some sp =>
    cases hrp : parseGridCode r.receiverCode with
    | none => exact h
    | some rp =>
      rw [List.enum_eq_enumFrom]
      exact chunkFold_chain_inv g dist params r sp rp hspeed hrate hdist
        (splitLoads params.capacity r.volume)
        (fun c hc => (splitLoads_mem _ _ _ hc).1.le) 0 st h

theorem processRequest_ids_inv (g : ℕ → String)
    (dist : GridPoint → GridPoint → ℚ) (params : PlannerParameters)
    (r : RequestInput) (st : BuildState) (h : PoolIdsInv st.vehicles) :
    PoolIdsInv (processRequest g dist params st r).vehicles := by
  rw [processRequest]
  cases hsp : parseGridCode r.shipperCode with
  | none => exact h
  | some sp =>
    cases hrp : parseGridCode r.receiverCode with
    | none => exact h
    | some rp =>
      rw [List.enum_eq_enumFrom]
      exact chunkFold_ids_inv g dist params r sp rp
        (splitLoads params.capacity r.volume) 0 st h

theorem requestFold_chain_inv (g : ℕ → String)
    (dist : GridPoint → GridPoint → ℚ) (params : PlannerParameters)
    (hspeed : 0 ≤ params.speed) (hrate : 0 ≤ params.loadUnloadRate)
    (hdist : ∀ p q, 0 ≤ dist p q) :
    ∀ (reqs : List RequestInput) (st : BuildState), PoolChainInv st.vehicles →
      PoolChainInv ((reqs.foldl (processRequest g dist params) st).vehicles) := by
  intro reqs
  induction reqs with
  | nil =>
    intro st h
    exact h
  | cons r rs ih =>
    intro st h
    rw [List.foldl_cons]
    exact ih _ (processRequest_chain_inv g dist params r st hspeed hrate hdist h)

theorem requestFold_ids_inv (g : ℕ → String)
    (dist : GridPoint → GridPoint → ℚ) (params : PlannerParameters) :
    ∀ (reqs : List RequestInput) (st : BuildState), PoolIdsInv st.vehicles →
      PoolIdsInv ((reqs.foldl (processRequest g dist params) st).vehicles) := by
  intro reqs
  induction reqs with
  | nil =>
    intro st h
    exact h
  | cons r rs ih =>
    intro st h
    rw [List.foldl_cons]
    exact ih _ (processRequest_ids_inv g dist params r st h)

/-- C4: with positive speed, non-negative loading rate and a non-negative
distance metric (as produced by a positive cell size), every vehicle of a
build result has its first trip starting at time 0 (the availability the
vehicle was created with), every later trip starting exactly at the
previous trip's end time (the vehicle's availability at assignment), and
its trip list already sorted by start time so that sorting by start time
leaves it unchanged and consecutive trips satisfy
`endTime ≤ next startTime`: vehicles are never double-booked. -/
theorem c4_no_double_booking (g : ℕ → String)
    (dist : GridPoint → GridPoint → ℚ) (requests : List RequestInput)
    (params : PlannerParameters)
    (hspeed : 0 < params.speed) (hrate : 0 ≤ params.loadUnloadRate)
    (hdist : ∀ p q, 0 ≤ dist p q) :
    ∀ v ∈ (buildPlan g dist requests params).vehicles,
      (v.trips.head?.map (fun t => t.schedule.startTime)).getD 0 = 0 ∧
      v.trips.Chain' (fun a b => b.schedule.startTime = a.schedule.endTime) ∧
      sortTripsByStart v.trips = v.trips ∧
      v.trips.Chain' (fun a b => a.schedule.endTime ≤ b.schedule.startTime) := by
  intro v hv
  obtain ⟨w, hw, rfl⟩ := List.mem_map.mp hv
  have hinv : VehicleInv w := requestFold_chain_inv g dist params hspeed.le hrate
    hdist (sanitizedRequests requests) { vehicles := [], trips := [] }
    (fun x hx => absurd hx (List.not_mem_nil x)) w hw
  obtain ⟨hchain, hdur, _, hhead, _⟩ := hinv
  have hstarts : w.trips.Pairwise
      (fun a b => a.schedule.startTime ≤ b.schedule.startTime) := by
    haveI : IsTrans TripPlan (fun a b => a.schedule.startTime ≤ b.schedule.startTime) :=
      ⟨fun a b c h1 h2 => le_trans h1 h2⟩
    rw [← List.chain'_iff_pairwise]
    refine chain'_imp_mem w.trips ?_ hchain
    intro a ha b _ hr
    rcases hdur a ha with ⟨he, ht⟩
    rw [hr, he]
    linarith
  exact ⟨hhead, hchain, sortTripsByStart_of_sorted _ hstarts,
    List.Chain'.imp (fun a b hr => le_of_eq hr.symm) hchain⟩

set_option maxRecDepth 2000 in
/-- Witness for C4 at a concrete two-trip single-vehicle plan (volume 8,
capacity 6, default parameters, Manhattan metric). -/
theorem c4_no_double_booking_witness :
    (((buildPlan (fun _ => "") (manhattanDistance 4)
      [{ id := "r1", shipperCode := "B3", receiverCode := "E2", volume := 8,
         workingHours := 24 }] defaultParameters).vehicles.getD 0
        { vehicleId := 0, trips := [], totalDistance := 0, totalTime := 0 }).trips.head?.map
      (fun t => t.schedule.startTime)).getD 0 = 0 ∧
    ((buildPlan (fun _ => "") (manhattanDistance 4)
      [{ id := "r1", shipperCode := "B3", receiverCode := "E2", volume := 8,
         workingHours := 24 }] defaultParameters).vehicles.getD 0
        { vehicleId := 0, trips := [], totalDistance := 0, totalTime := 0 }).trips.Chain'
      (fun a b => b.schedule.startTime = a.schedule.endTime) ∧
    sortTripsByStart ((buildPlan (fun _ => "") (manhattanDistance 4)
      [{ id := "r1", shipperCode := "B3", receiverCode := "E2", volume := 8,
         workingHours := 24 }] defaultParameters).vehicles.getD 0
        { vehicleId := 0, trips := [], totalDistance := 0, totalTime := 0 }).trips =
      ((buildPlan (fun _ => "") (manhattanDistance 4)
        [{ id := "r1", shipperCode := "B3", receiverCode := "E2", volume := 8,
           workingHours := 24 }] defaultParameters).vehicles.getD 0
        { vehicleId := 0, trips := [], totalDistance := 0, totalTime := 0 }).trips ∧
    ((buildPlan (fun _ => "") (manhattanDistance 4)
      [{ id := "r1", shipperCode := "B3", receiverCode := "E2", volume := 8,
         workingHours := 24 }] defaultParameters).vehicles.getD 0
        { vehicleId := 0, trips := [], totalDistance := 0, totalTime := 0 }).trips.Chain'
      (fun a b => a.schedule.endTime ≤ b.schedule.startTime) :=
  c4_no_double_booking (fun _ => "") (manhattanDistance 4)
    [{ id := "r1", shipperCode := "B3", receiverCode := "E2", volume := 8,
       workingHours := 24 }] defaultParameters
    (by norm_num [defaultParameters])
    (by norm_num [defaultParameters])
    (fun p q => manhattanDistance_nonneg 4 (by norm_num) p q)
    _ (getD_mem_of_lt _ 0 _ (by with_unfolding_all decide))

/-- C10: the vehicle ids of a build result are exactly 1..vehiclesRequired,
each occurring once, but the vehicles array is emitted in the pool's final
order after the in-place availability sorts, so for some inputs producing
two vehicles the array is not ascending by id — here it is [2, 1]. -/
theorem c10_vehicle_list_order (g : ℕ → String)
    (dist : GridPoint → GridPoint → ℚ) (requests : List RequestInput)
    (params : PlannerParameters) :
    ((buildPlan g dist requests params).vehicles.map (fun v => v.vehicleId)).Perm
      (List.range' 1 (buildPlan g dist requests params).summary.vehiclesRequired) ∧
    ((buildPlan (fun _ => "") (manhattanDistance 1)
      [{ id := "a", shipperCode := "F6", receiverCode := "A1", volume := 1,
         workingHours := 24 },
       { id := "b", shipperCode := "B4", receiverCode := "B4", volume := 1,
         workingHours := 24 },
       { id := "c", shipperCode := "C5", receiverCode := "C5", volume := 1,
         workingHours := 24 }]
      { capacity := 1, loadUnloadRate := 0, cellSize := 1, speed := 1,
        distanceMode := DistanceMode.manhattan, workdayLength := 24 }).vehicles.map
      (fun v => v.vehicleId)) = [2, 1] := by
  constructor
  · have hids : PoolIdsInv (((sanitizedRequests requests).foldl
        (processRequest g dist params) { vehicles := [], trips := [] }).vehicles) :=
      requestFold_ids_inv g dist params (sanitizedRequests requests)
        { vehicles := [], trips := [] } (by simp [PoolIdsInv])
    unfold PoolIdsInv at hids
    simp only [buildPlan]
    rw [List.map_map, List.length_map]
    exact hids
  · with_unfolding_all decide

theorem requestFold_blocks (g : ℕ → String)
    (dist : GridPoint → GridPoint → ℚ) (params : PlannerParameters)
    (hcap : 0 < params.capacity) :
    ∀ (reqs : List RequestInput) (st : BuildState),
      (∀ r ∈ reqs, validateRequest r = none) →
      ∃ blocks : List (List TripPlan),
        (reqs.foldl (processRequest g dist params) st).trips =
          st.trips ++ blocks.flatten ∧
        List.Forall₂ (fun (b : List TripPlan) (r : RequestInput) =>
          (b.map (fun t => t.load)).sum = r.volume ∧
          (∀ t ∈ b, 0 < t.load ∧ t.load ≤ params.capacity) ∧
          b.map (fun t => t.tripNumber) = List.range' 1 b.length ∧
          ∀ t ∈ b, t.requestId = r.id) blocks reqs := by
  intro reqs
  induction reqs with
  | nil =>
    intro st _
    exact ⟨[], by simp, List.Forall₂.nil⟩
  | cons r rs ih =>
    intro st hvalid
    have hr := hvalid r (List.mem_cons_self r rs)
    obtain ⟨_, _, hvol, hsp', hrp'⟩ := (validateRequest_eq_none_iff r).mp hr
    obtain ⟨sp, hsp⟩ := Option.isSome_iff_exists.mp hsp'
    obtain ⟨rp, hrp⟩ := Option.isSome_iff_exists.mp hrp'
    obtain ⟨block, hb1, hb2, hb3, hb4⟩ :=
      processRequest_trips_spec g dist params r sp rp hsp hrp st
    obtain ⟨blocks, hbs1, hbs2⟩ := ih (processRequest g dist params st r)
      (fun r' hr' => hvalid r' (List.mem_cons_of_mem r hr'))
    refine ⟨block :: blocks, ?_, ?_⟩
    · rw [List.foldl_cons, hbs1, hb1, List.flatten_cons, List.append_assoc]
    · refine List.Forall₂.cons ⟨?_, ?_, ?_, ?_⟩ hbs2
      · rw [hb2]
        exact splitLoads_sum params.capacity r.volume hcap hvol.le
      · intro t ht
        have : t.load ∈ splitLoads params.capacity r.volume := by
          rw [← hb2]
          exact List.mem_map_of_mem (fun t => t.load) ht
        exact splitLoads_mem _ _ _ this
      · have hlen : block.length = (splitLoads params.capacity r.volume).length := by
          rw [← hb2, List.length_map]
        rw [hb3, hlen]
      · intro t ht
        exact (hb4 t ht).1

/-- C3: for every accepted request and positive capacity, the loads of the
trips generated for that request sum exactly to the request's volume, every
load satisfies `0 < load ≤ capacity`, and trip numbers within the request
count up from 1; the global trip list is the concatenation of one such
block per accepted request, in order. -/
theorem c3_trip_decomposition (g : ℕ → String)
    (dist : GridPoint → GridPoint → ℚ) (requests : List RequestInput)
    (params : PlannerParameters) (hcap : 0 < params.capacity) :
    ∃ blocks : List (List TripPlan),
      (buildPlan g dist requests params).trips = blocks.flatten ∧
      List.Forall₂ (fun (b : List TripPlan) (r : RequestInput) =>
        (b.map (fun t => t.load)).sum = r.volume ∧
        (∀ t ∈ b, 0 < t.load ∧ t.load ≤ params.capacity) ∧
        b.map (fun t => t.tripNumber) = List.range' 1 b.length ∧
        ∀ t ∈ b, t.requestId = r.id) blocks (sanitizedRequests requests) := by
  obtain ⟨blocks, h1, h2⟩ := requestFold_blocks g dist params hcap
    (sanitizedRequests requests) { vehicles := [], trips := [] }
    (fun r hr => (sanitized_mem_valid requests r hr).2)
  exact ⟨blocks, by simpa using h1, h2⟩

/-- Witness for C3: volume 8 with capacity 6 splits into loads 6 and 2 with
trip numbers 1 and 2 (Scenario A). -/
theorem c3_trip_decomposition_witness :
    (0 : ℚ) < (defaultParameters).capacity ∧
    ∃ blocks : List (List TripPlan),
      (buildPlan (fun _ => "") (manhattanDistance 4)
        [{ id := "r1", shipperCode := "B3", receiverCode := "E2", volume := 8,
           workingHours := 24 }] defaultParameters).trips = blocks.flatten ∧
      List.Forall₂ (fun (b : List TripPlan) (r : RequestInput) =>
        (b.map (fun t => t.load)).sum = r.volume ∧
        (∀ t ∈ b, 0 < t.load ∧ t.load ≤ (defaultParameters).capacity) ∧
        b.map (fun t => t.tripNumber) = List.range' 1 b.length ∧
        ∀ t ∈ b, t.requestId = r.id) blocks
        (sanitizedRequests
          [{ id := "r1", shipperCode := "B3", receiverCode := "E2", volume := 8,
             workingHours := 24 }]) :=
  ⟨by norm_num [defaultParameters],
   c3_trip_decomposition (fun _ => "") (manhattanDistance 4)
     [{ id := "r1", shipperCode := "B3", receiverCode := "E2", volume := 8,
        workingHours := 24 }] defaultParameters
     (by norm_num [defaultParameters])⟩

/-- C6: the summary's distance aggregates are the stated sums and
differences over all trips, and with a non-negative distance metric (as
produced by a positive cell size) utilization is `loaded / total`, equal to
0 when the total distance is 0, and always within [0, 1]. -/
theorem c6_aggregation_postcondition (g : ℕ → String)
    (dist : GridPoint → GridPoint → ℚ) (requests : List RequestInput)
    (params : PlannerParameters) (hdist : ∀ p q, 0 ≤ dist p q) :
    (buildPlan g dist requests params).summary.totalDistance =
      ((buildPlan g dist requests params).trips.map
        (fun t => t.distances.total)).sum ∧
    (buildPlan g dist requests params).summary.loadedDistance =
      ((buildPlan g dist requests params).trips.map
        (fun t => t.distances.toReceiver)).sum ∧
    (buildPlan g dist requests params).summary.emptyDistance =
      (buildPlan g dist requests params).summary.totalDistance -
        (buildPlan g dist requests params).summary.loadedDistance ∧
    ((buildPlan g dist requests params).summary.totalDistance = 0 →
      (buildPlan g dist requests params).summary.utilization = 0) ∧
    ((buildPlan g dist requests params).summary.totalDistance ≠ 0 →
      (buildPlan g dist requests params).summary.utilization =
        (buildPlan g dist requests params).summary.loadedDistance /
          (buildPlan g dist requests params).summary.totalDistance) ∧
    0 ≤ (buildPlan g dist requests params).summary.utilization ∧
    (buildPlan g dist requests params).summary.utilization ≤ 1 := by
  have key : ∀ t ∈ (buildPlan g dist requests params).trips,
      0 ≤ t.distances.toReceiver ∧ t.distances.toReceiver ≤ t.distances.total ∧
        0 ≤ t.distances.total := by
    intro t ht
    obtain ⟨r, _, sp, rp, _, _, hmade⟩ :=
      buildPlan_trips_from g dist requests params t ht
    obtain ⟨_, _, _, _, hdists, _⟩ := hmade
    rw [hdists]
    unfold mkDistances
    simp only
    have h1 := hdist depotPoint sp
    have h2 := hdist sp rp
    have h3 := hdist rp depotPoint
    exact ⟨h2, by linarith, by linarith⟩
  have hloaded : 0 ≤ ((buildPlan g dist requests params).trips.map
      (fun t => t.distances.toReceiver)).sum := by
    apply List.sum_nonneg
    intro x hx
    obtain ⟨t, ht, rfl⟩ := List.mem_map.mp hx
    exact (key t ht).1
  have hle : ((buildPlan g dist requests params).trips.map
      (fun t => t.distances.toReceiver)).sum ≤
      ((buildPlan g dist requests params).trips.map
        (fun t => t.distances.total)).sum :=
    List.sum_le_sum (fun t ht => (key t ht).2.1)
  have htotal : 0 ≤ ((buildPlan g dist requests params).trips.map
      (fun t => t.distances.total)).sum := le_trans hloaded hle
  refine ⟨rfl, rfl, rfl, ?_, ?_, ?_, ?_⟩
  · intro h
    exact if_pos h
  · intro h
    exact if_neg h
  · show 0 ≤ (if _ = 0 then (0:ℚ) else _)
    split
    · exact le_refl 0
    · next h =>
      have hpos : 0 < ((buildPlan g dist requests params).trips.map
          (fun t => t.distances.total)).sum := lt_of_le_of_ne htotal (Ne.symm h)
      exact div_nonneg hloaded htotal
  · show (if _ = 0 then (0:ℚ) else _) ≤ 1
    split
    · exact zero_le_one
    · next h =>
      have hpos : 0 < ((buildPlan g dist requests params).trips.map
          (fun t => t.distances.total)).sum := lt_of_le_of_ne htotal (Ne.symm h)
      exact (div_le_one hpos).mpr hle

/-- Witness for C6: utilization of the plan for a single volume-8 request
lies within [0, 1]. -/
theorem c6_aggregation_postcondition_witness :
    0 ≤ (buildPlan (fun _ => "") (manhattanDistance 4)
      [{ id := "r1", shipperCode := "B3", receiverCode := "E2", volume := 8,
         workingHours := 24 }] defaultParameters).summary.utilization ∧
    (buildPlan (fun _ => "") (manhattanDistance 4)
      [{ id := "r1", shipperCode := "B3", receiverCode := "E2", volume := 8,
         workingHours := 24 }] defaultParameters).summary.utilization ≤ 1 :=
  ⟨(c6_aggregation_postcondition (fun _ => "") (manhattanDistance 4)
      [{ id := "r1", shipperCode := "B3", receiverCode := "E2", volume := 8,
         workingHours := 24 }] defaultParameters
      (fun p q => manhattanDistance_nonneg 4 (by norm_num) p q)).2.2.2.2.2.1,
   (c6_aggregation_postcondition (fun _ => "") (manhattanDistance 4)
      [{ id := "r1", shipperCode := "B3", receiverCode := "E2", volume := 8,
         workingHours := 24 }] defaultParameters
      (fun p q => manhattanDistance_nonneg 4 (by norm_num) p q)).2.2.2.2.2.2⟩

theorem length_filterMap_validate (l : List RequestInput) :
    (l.filterMap validateRequest).length =
      (l.filter (fun r => (validateRequest r).isSome)).length := by
  induction l with
  | nil => rfl
  | cons r rs ih =>
    rw [List.filterMap_cons, List.filter_cons]
    cases h : validateRequest r with
    | none => simpa [h] using ih
    | some e => simpa [h] using ih

/-- C7: a request is rejected — contributing exactly one error string and no
trips — exactly when a code is empty, the volume is non-positive, or a code
fails to parse (such as "G1"); accepted requests keep their original
relative order and every trip comes from an accepted request, so a
rejection never aborts the rest of the batch. -/
theorem c7_input_validation (g : ℕ → String)
    (dist : GridPoint → GridPoint → ℚ) (requests : List RequestInput)
    (params : PlannerParameters) :
    (buildPlan g dist requests params).errors = requests.filterMap validateRequest ∧
    (∀ r : RequestInput, (validateRequest r).isSome = true ↔
      (r.shipperCode = "" ∨ r.receiverCode = "" ∨ r.volume ≤ 0 ∨
        parseGridCode r.shipperCode = none ∨ parseGridCode r.receiverCode = none)) ∧
    (buildPlan g dist requests params).errors.length =
      (requests.filter (fun r => (validateRequest r).isSome)).length ∧
    (sanitizedRequests requests).Sublist requests ∧
    (∀ t ∈ (buildPlan g dist requests params).trips,
      ∃ r ∈ sanitizedRequests requests, t.requestId = r.id ∧
        t.shipperCode = r.shipperCode ∧ t.receiverCode = r.receiverCode) ∧
    parseGridCode "G1" = none := by
  refine ⟨rfl, ?_, ?_, ?_, ?_, ?_⟩
  · intro r
    constructor
    · intro h
      by_contra hcon
      push_neg at hcon
      obtain ⟨hA, hB, hC, hD, hE⟩ := hcon
      have hnone : validateRequest r = none := (validateRequest_eq_none_iff r).mpr
        ⟨hA, hB, hC, Option.isSome_iff_ne_none.mpr hD,
          Option.isSome_iff_ne_none.mpr hE⟩
      rw [hnone] at h
      simp at h
    · intro h
      by_contra hcon
      have hnone : validateRequest r = none := by
        cases hval : validateRequest r with
        | none => rfl
        | some e =>
          rw [hval] at hcon
          simp at hcon
      obtain ⟨h1, h2, h3, h4, h5⟩ := (validateRequest_eq_none_iff r).mp hnone
      rcases h with h | h | h | h | h
      · exact h1 h
      · exact h2 h
      · exact absurd h3 (not_lt.mpr h)
      · rw [h] at h4
        simp at h4
      · rw [h] at h5
        simp at h5
  · exact length_filterMap_validate requests
  · exact List.filter_sublist requests
  · intro t ht
    obtain ⟨r, hr, sp, rp, _, _, hmade⟩ :=
      buildPlan_trips_from g dist requests params t ht
    exact ⟨r, hr, hmade.1, hmade.2.2.1, hmade.2.2.2.1⟩
  · with_unfolding_all decide

/-- Witness for C7 at Scenario E plus one valid request: the "G1" request
is excluded with one error and the remaining request still yields its trip,
whose descriptive fields come from that accepted request. -/
theorem c7_input_validation_witness :
    ∃ r ∈ sanitizedRequests
      [{ id := "bad", shipperCode := "G1", receiverCode := "E2", volume := 3,
         workingHours := 24 },
       { id := "ok", shipperCode := "B3", receiverCode := "E2", volume := 2,
         workingHours := 24 }],
      ((buildPlan (fun _ => "") (manhattanDistance 4)
        [{ id := "bad", shipperCode := "G1", receiverCode := "E2", volume := 3,
           workingHours := 24 },
         { id := "ok", shipperCode := "B3", receiverCode := "E2", volume := 2,
           workingHours := 24 }] defaultParameters).trips.getD 0
        defaultTrip).requestId = r.id ∧
      ((buildPlan (fun _ => "") (manhattanDistance 4)
        [{ id := "bad", shipperCode := "G1", receiverCode := "E2", volume := 3,
           workingHours := 24 },
         { id := "ok", shipperCode := "B3", receiverCode := "E2", volume := 2,
           workingHours := 24 }] defaultParameters).trips.getD 0
        defaultTrip).shipperCode = r.shipperCode ∧
      ((buildPlan (fun _ => "") (manhattanDistance 4)
        [{ id := "bad", shipperCode := "G1", receiverCode := "E2", volume := 3,
           workingHours := 24 },
         { id := "ok", shipperCode := "B3", receiverCode := "E2", volume := 2,
           workingHours := 24 }] defaultParameters).trips.getD 0
        defaultTrip).receiverCode = r.receiverCode :=
  (c7_input_validation (fun _ => "") (manhattanDistance 4)
    [{ id := "bad", shipperCode := "G1", receiverCode := "E2", volume := 3,
       workingHours := 24 },
     { id := "ok", shipperCode := "B3", receiverCode := "E2", volume := 2,
       workingHours := 24 }] defaultParameters).2.2.2.2.1 _
    (getD_mem_of_lt _ 0 _ (by with_unfolding_all decide))

theorem serviceWindowWarning_ne_shiftWarning (a b c d : ℚ) :
    serviceWindowWarning a b ≠ shiftWarning c d := by
  intro h
  have h2 := congrArg (fun s => s.data.head?) h
  simp only [serviceWindowWarning, shiftWarning, String.data_append,
    List.head?_append] at h2
  rw [show ("Работы у клиента превышают рабочее время (".data.head?) = some 'Р'
      from rfl,
    show ("Продолжительность рейса превышает смену (".data.head?) = some 'П'
      from rfl] at h2
  simp only [Option.or_some] at h2
  exact absurd (Option.some.inj h2) (by decide)

/-- C8: a trip carries the service-window warning exactly when its
departure from the receiver strictly exceeds its request's working hours,
and the shift warning exactly when its total time strictly exceeds the
workday length; a trip violating only the service-window condition carries
exactly that one warning, whose text is built from both formatted hour
values.  Warnings are data on the trip only: they are attached after the
vehicle assignment and schedule are fixed, blocking neither. -/
theorem c8_warning_semantics (g : ℕ → String)
    (dist : GridPoint → GridPoint → ℚ) (requests : List RequestInput)
    (params : PlannerParameters) :
    ∀ t ∈ (buildPlan g dist requests params).trips,
      ∃ r ∈ sanitizedRequests requests,
        t.requestId = r.id ∧
        (serviceWindowWarning t.schedule.departureReceiver r.workingHours ∈
            t.warnings ↔ t.schedule.departureReceiver > r.workingHours) ∧
        (shiftWarning t.timing.total params.workdayLength ∈ t.warnings ↔
          t.timing.total > params.workdayLength) ∧
        (t.schedule.departureReceiver > r.workingHours →
          ¬ t.timing.total > params.workdayLength →
          t.warnings =
            [serviceWindowWarning t.schedule.departureReceiver r.workingHours] ∧
          ∃ s1 s2 s3 : String,
            serviceWindowWarning t.schedule.departureReceiver r.workingHours =
              s1 ++ toFixed2 t.schedule.departureReceiver ++ s2 ++
                toFixed2 r.workingHours ++ s3) := by
  intro t ht
  obtain ⟨r, hr, sp, rp, _, _, hmade⟩ :=
    buildPlan_trips_from g dist requests params t ht
  obtain ⟨hid, _, _, _, _, _, _, hwarn⟩ := hmade
  refine ⟨r, hr, hid, ?_, ?_, ?_⟩
  · rw [hwarn]
    unfold tripWarnings
    constructor
    · intro hmem
      by_contra hcon
      rw [if_neg hcon] at hmem
      simp only [List.nil_append] at hmem
      split at hmem
      · rcases List.mem_singleton.mp hmem with heq
        exact absurd heq (serviceWindowWarning_ne_shiftWarning _ _ _ _)
      · simp at hmem
    · intro hcond
      rw [if_pos hcond]
      exact List.mem_append_left _ (List.mem_singleton.mpr rfl)
  · rw [hwarn]
    unfold tripWarnings
    constructor
    · intro hmem
      by_contra hcon
      rw [if_neg hcon] at hmem
      rcases List.mem_append.mp hmem with hmem | hmem
      · split at hmem
        · rcases List.mem_singleton.mp hmem with heq
          exact absurd heq.symm (serviceWindowWarning_ne_shiftWarning _ _ _ _)
        · simp at hmem
      · simp at hmem
    · intro hcond
      rw [if_pos hcond]
      exact List.mem_append_right _ (List.mem_singleton.mpr rfl)
  · intro h1 h2
    rw [hwarn]
    unfold tripWarnings
    rw [if_pos h1, if_neg h2]
    refine ⟨by simp, ?_⟩
    exact ⟨"Работы у клиента превышают рабочее время (", " ч > ", " ч).", rfl⟩

/-- Witness for C8 at Scenario C: a single trip whose departure from the
receiver exceeds the request's 0.1-hour service window but whose duration
fits the shift, carrying exactly one warning. -/
theorem c8_warning_semantics_witness :
    ∃ r ∈ sanitizedRequests
      [{ id := "rc", shipperCode := "B3", receiverCode := "E2", volume := 2,
         workingHours := 1 / 10 }],
      ((buildPlan (fun _ => "") (manhattanDistance 4)
        [{ id := "rc", shipperCode := "B3", receiverCode := "E2", volume := 2,
           workingHours := 1 / 10 }] defaultParameters).trips.getD 0
        defaultTrip).requestId = r.id ∧
      (serviceWindowWarning ((buildPlan (fun _ => "") (manhattanDistance 4)
        [{ id := "rc", shipperCode := "B3", receiverCode := "E2", volume := 2,
           workingHours := 1 / 10 }] defaultParameters).trips.getD 0
        defaultTrip).schedule.departureReceiver
          r.workingHours ∈
        ((buildPlan (fun _ => "") (manhattanDistance 4)
        [{ id := "rc", shipperCode := "B3", receiverCode := "E2", volume := 2,
           workingHours := 1 / 10 }] defaultParameters).trips.getD 0
        defaultTrip).warnings ↔
        ((buildPlan (fun _ => "") (manhattanDistance 4)
        [{ id := "rc", shipperCode := "B3", receiverCode := "E2", volume := 2,
           workingHours := 1 / 10 }] defaultParameters).trips.getD 0
        defaultTrip).schedule.departureReceiver >
          r.workingHours) ∧
      (shiftWarning ((buildPlan (fun _ => "") (manhattanDistance 4)
        [{ id := "rc", shipperCode := "B3", receiverCode := "E2", volume := 2,
           workingHours := 1 / 10 }] defaultParameters).trips.getD 0
        defaultTrip).timing.total
          (defaultParameters).workdayLength ∈
        ((buildPlan (fun _ => "") (manhattanDistance 4)
        [{ id := "rc", shipperCode := "B3", receiverCode := "E2", volume := 2,
           workingHours := 1 / 10 }] defaultParameters).trips.getD 0
        defaultTrip).warnings ↔
        ((buildPlan (fun _ => "") (manhattanDistance 4)
        [{ id := "rc", shipperCode := "B3", receiverCode := "E2", volume := 2,
           workingHours := 1 / 10 }] defaultParameters).trips.getD 0
        defaultTrip).timing.total >
          (defaultParameters).workdayLength) ∧
      (((buildPlan (fun _ => "") (manhattanDistance 4)
        [{ id := "rc", shipperCode := "B3", receiverCode := "E2", volume := 2,
           workingHours := 1 / 10 }] defaultParameters).trips.getD 0
        defaultTrip).schedule.departureReceiver >
          r.workingHours →
        ¬ ((buildPlan (fun _ => "") (manhattanDistance 4)
        [{ id := "rc", shipperCode := "B3", receiverCode := "E2", volume := 2,
           workingHours := 1 / 10 }] defaultParameters).trips.getD 0
        defaultTrip).timing.total >
          (defaultParameters).workdayLength →
        ((buildPlan (fun _ => "") (manhattanDistance 4)
        [{ id := "rc", shipperCode := "B3", receiverCode := "E2", volume := 2,
           workingHours := 1 / 10 }] defaultParameters).trips.getD 0
        defaultTrip).warnings =
          [serviceWindowWarning ((buildPlan (fun _ => "") (manhattanDistance 4)
            [{ id := "rc", shipperCode := "B3", receiverCode := "E2", volume := 2,
               workingHours := 1 / 10 }] defaultParameters).trips.getD 0
            defaultTrip).schedule.departureReceiver
            r.workingHours] ∧
        ∃ s1 s2 s3 : String,
          serviceWindowWarning ((buildPlan (fun _ => "") (manhattanDistance 4)
            [{ id := "rc", shipperCode := "B3", receiverCode := "E2", volume := 2,
               workingHours := 1 / 10 }] defaultParameters).trips.getD 0
            defaultTrip).schedule.departureReceiver
            r.workingHours =
            s1 ++ toFixed2 ((buildPlan (fun _ => "") (manhattanDistance 4)
              [{ id := "rc", shipperCode := "B3", receiverCode := "E2", volume := 2,
                 workingHours := 1 / 10 }] defaultParameters).trips.getD 0
              defaultTrip).schedule.departureReceiver ++
              s2 ++ toFixed2 r.workingHours ++ s3) :=
  c8_warning_semantics (fun _ => "") (manhattanDistance 4)
    [{ id := "rc", shipperCode := "B3", receiverCode := "E2", volume := 2,
       workingHours := 1 / 10 }] defaultParameters _
    (getD_mem_of_lt _ 0 _ (by with_unfolding_all decide))

/-- Trip with its generated uuid erased. -/
def eraseTripId (t : TripPlan) : TripPlan :=
  { t with id := "" }

/-- Pool vehicle with all its trips' uuids erased. -/
def eraseVehicleTripIds (v : VehicleState) : VehicleState :=
  { v with trips := v.trips.map eraseTripId }

/-- Build state with all trip uuids erased. -/
def eraseStateIds (st : BuildState) : BuildState :=
  { vehicles := st.vehicles.map eraseVehicleTripIds,
    trips := st.trips.map eraseTripId }

/-- Vehicle schedule with all its trips' uuids erased. -/
def eraseScheduleTripIds (v : VehicleSchedule) : VehicleSchedule :=
  { v with trips := v.trips.map eraseTripId }

/-- Plan result with all trip uuids erased; every other field is kept. -/
def erasePlanIds (p : PlanResult) : PlanResult :=
  { p with
    trips := p.trips.map eraseTripId,
    vehicles := p.vehicles.map eraseScheduleTripIds }

theorem insertByAvailable_map_erase (v : VehicleState) (l : List VehicleState) :
    (insertByAvailable v l).map eraseVehicleTripIds =
      insertByAvailable (eraseVehicleTripIds v) (l.map eraseVehicleTripIds) := by
  induction l with
  | nil => rfl
  | cons w ws ih =>
    show (insertByAvailable v (w :: ws)).map eraseVehicleTripIds =
      insertByAvailable _ (eraseVehicleTripIds w :: ws.map eraseVehicleTripIds)
    rw [insertByAvailable, insertByAvailable]
    split
    · next h =>
      rw [if_pos (show (eraseVehicleTripIds w).availableTime <
          (eraseVehicleTripIds v).availableTime from h)]
      rw [List.map_cons, ih]
    · next h =>
      rw [if_neg (show ¬ (eraseVehicleTripIds w).availableTime <
          (eraseVehicleTripIds v).availableTime from h)]
      rfl

theorem sortByAvailable_map_erase (l : List VehicleState) :
    (sortByAvailable l).map eraseVehicleTripIds =
      sortByAvailable (l.map eraseVehicleTripIds) := by
  induction l with
  | nil => rfl
  | cons v vs ih =>
    show (insertByAvailable v (sortByAvailable vs)).map eraseVehicleTripIds = _
    rw [insertByAvailable_map_erase, ih]
    rfl

theorem selectVehicle_map_erase (pool : List VehicleState)
    (tripDuration workdayLength : ℚ) :
    selectVehicle (pool.map eraseVehicleTripIds) tripDuration workdayLength =
      ((selectVehicle pool tripDuration workdayLength).1.map eraseVehicleTripIds,
        (selectVehicle pool tripDuration workdayLength).2) := by
  rcases eq_or_ne pool [] with h | h
  · subst h
    rfl
  · have hne : ¬ pool.isEmpty = true := by simpa [List.isEmpty_iff] using h
    have hne' : ¬ (pool.map eraseVehicleTripIds).isEmpty = true := by
      simpa [List.isEmpty_iff] using h
    simp only [selectVehicle, if_neg hne, if_neg hne']
    rw [← sortByAvailable_map_erase, List.findIdx?_map]
    have hpred : (vehicleFits tripDuration workdayLength ∘ eraseVehicleTripIds) =
        vehicleFits tripDuration workdayLength := by
      funext v
      rfl
    rw [hpred]
    cases hfind : (sortByAvailable pool).findIdx?
        (vehicleFits tripDuration workdayLength) with
    | some i => simp only [hfind]
    | none =>
      simp only [hfind, List.map_append, List.length_map, List.map_cons,
        List.map_nil]
      rfl

theorem eraseVehicleTripIds_assignTrip (v : VehicleState) (t : TripPlan) :
    eraseVehicleTripIds (assignTrip v t) =
      assignTrip (eraseVehicleTripIds v) (eraseTripId t) := by
  unfold eraseVehicleTripIds assignTrip eraseTripId
  simp only [List.map_append, List.map_cons, List.map_nil]

theorem processChunk_erase (g g' : ℕ → String)
    (dist : GridPoint → GridPoint → ℚ) (params : PlannerParameters)
    (r : RequestInput) (sp rp : GridPoint) (st st' : BuildState)
    (hst : eraseStateIds st = eraseStateIds st') (n : ℕ) (load : ℚ) :
    eraseStateIds (processChunk g dist params r sp rp st n load) =
      eraseStateIds (processChunk g' dist params r sp rp st' n load) := by
  have hE : st.vehicles.map eraseVehicleTripIds =
      st'.vehicles.map eraseVehicleTripIds := congrArg BuildState.vehicles hst
  have hT : st.trips.map eraseTripId = st'.trips.map eraseTripId :=
    congrArg BuildState.trips hst
  have hlen : st.trips.length = st'.trips.length := by
    have := congrArg List.length hT
    simpa using this
  have hsel : ((selectVehicle st.vehicles
        (mkTiming params.loadUnloadRate params.speed load (mkDistances dist sp rp)).total
        params.workdayLength).1.map eraseVehicleTripIds,
      (selectVehicle st.vehicles
        (mkTiming params.loadUnloadRate params.speed load (mkDistances dist sp rp)).total
        params.workdayLength).2) =
      ((selectVehicle st'.vehicles
        (mkTiming params.loadUnloadRate params.speed load (mkDistances dist sp rp)).total
        params.workdayLength).1.map eraseVehicleTripIds,
      (selectVehicle st'.vehicles
        (mkTiming params.loadUnloadRate params.speed load (mkDistances dist sp rp)).total
        params.workdayLength).2) := by
    rw [← selectVehicle_map_erase, ← selectVehicle_map_erase, hE]
  have hsel1 := congrArg Prod.fst hsel
  have hsel2 := congrArg Prod.snd hsel
  simp only at hsel1 hsel2
  have hveh : eraseVehicleTripIds ((selectVehicle st.vehicles
        (mkTiming params.loadUnloadRate params.speed load (mkDistances dist sp rp)).total
        params.workdayLength).1.getD (selectVehicle st.vehicles
        (mkTiming params.loadUnloadRate params.speed load (mkDistances dist sp rp)).total
        params.workdayLength).2 (createVehicle 0)) =
      eraseVehicleTripIds ((selectVehicle st'.vehicles
        (mkTiming params.loadUnloadRate params.speed load (mkDistances dist sp rp)).total
        params.workdayLength).1.getD (selectVehicle st'.vehicles
        (mkTiming params.loadUnloadRate params.speed load (mkDistances dist sp rp)).total
        params.workdayLength).2 (createVehicle 0)) := by
    have h1 := List.getD_map (f := eraseVehicleTripIds)
      ((selectVehicle st.vehicles
        (mkTiming params.loadUnloadRate params.speed load (mkDistances dist sp rp)).total
        params.workdayLength).1) (createVehicle 0)
      (n := (selectVehicle st.vehicles
        (mkTiming params.loadUnloadRate params.speed load (mkDistances dist sp rp)).total
        params.workdayLength).2)
    have h2 := List.getD_map (f := eraseVehicleTripIds)
      ((selectVehicle st'.vehicles
        (mkTiming params.loadUnloadRate params.speed load (mkDistances dist sp rp)).total
        params.workdayLength).1) (createVehicle 0)
      (n := (selectVehicle st'.vehicles
        (mkTiming params.loadUnloadRate params.speed load (mkDistances dist sp rp)).total
        params.workdayLength).2)
    rw [← h1, ← h2, hsel1, hsel2]
  have havail : ((selectVehicle st.vehicles
        (mkTiming params.loadUnloadRate params.speed load (mkDistances dist sp rp)).total
        params.workdayLength).1.getD (selectVehicle st.vehicles
        (mkTiming params.loadUnloadRate params.speed load (mkDistances dist sp rp)).total
        params.workdayLength).2 (createVehicle 0)).availableTime =
      ((selectVehicle st'.vehicles
        (mkTiming params.loadUnloadRate params.speed load (mkDistances dist sp rp)).total
        params.workdayLength).1.getD (selectVehicle st'.vehicles
        (mkTiming params.loadUnloadRate params.speed load (mkDistances dist sp rp)).total
        params.workdayLength).2 (createVehicle 0)).availableTime := by
    have h0 := congrArg VehicleState.availableTime hveh
    exact h0
  have hid : ((selectVehicle st.vehicles
        (mkTiming params.loadUnloadRate params.speed load (mkDistances dist sp rp)).total
        params.workdayLength).1.getD (selectVehicle st.vehicles
        (mkTiming params.loadUnloadRate params.speed load (mkDistances dist sp rp)).total
        params.workdayLength).2 (createVehicle 0)).id =
      ((selectVehicle st'.vehicles
        (mkTiming params.loadUnloadRate params.speed load (mkDistances dist sp rp)).total
        params.workdayLength).1.getD (selectVehicle st'.vehicles
        (mkTiming params.loadUnloadRate params.speed load (mkDistances dist sp rp)).total
        params.workdayLength).2 (createVehicle 0)).id := by
    have h0 := congrArg VehicleState.id hveh
    exact h0
  unfold processChunk eraseStateIds
  simp only [List.map_append, List.map_cons, List.map_nil, List.map_set]
  rw [eraseVehicleTripIds_assignTrip, eraseVehicleTripIds_assignTrip]
  have htrip : eraseTripId
      { id := g st.trips.length
        requestId := r.id
        requestLabel := r.shipperCode ++ " → " ++ r.receiverCode
        shipperCode := r.shipperCode
        receiverCode := r.receiverCode
        tripNumber := n
        load := load
        distances := mkDistances dist sp rp
        timing := mkTiming params.loadUnloadRate params.speed load (mkDistances dist sp rp)
        schedule := mkSchedule params.speed (mkDistances dist sp rp)
          (mkTiming params.loadUnloadRate params.speed load (mkDistances dist sp rp))
          ((selectVehicle st.vehicles
            (mkTiming params.loadUnloadRate params.speed load (mkDistances dist sp rp)).total
            params.workdayLength).1.getD (selectVehicle st.vehicles
            (mkTiming params.loadUnloadRate params.speed load (mkDistances dist sp rp)).total
            params.workdayLength).2 (createVehicle 0)).availableTime
        vehicleId := ((selectVehicle st.vehicles
            (mkTiming params.loadUnloadRate params.speed load (mkDistances dist sp rp)).total
            params.workdayLength).1.getD (selectVehicle st.vehicles
            (mkTiming params.loadUnloadRate params.speed load (mkDistances dist sp rp)).total
            params.workdayLength).2 (createVehicle 0)).id
        warnings := tripWarnings r.workingHours params.workdayLength
          (mkSchedule params.speed (mkDistances dist sp rp)
            (mkTiming params.loadUnloadRate params.speed load (mkDistances dist sp rp))
            ((selectVehicle st.vehicles
              (mkTiming params.loadUnloadRate params.speed load (mkDistances dist sp rp)).total
              params.workdayLength).1.getD (selectVehicle st.vehicles
              (mkTiming params.loadUnloadRate params.speed load (mkDistances dist sp rp)).total
              params.workdayLength).2 (createVehicle 0)).availableTime)
          (mkTiming params.loadUnloadRate params.speed load (mkDistances dist sp rp)) } =
      eraseTripId
      { id := g' st'.trips.length
        requestId := r.id
        requestLabel := r.shipperCode ++ " → " ++ r.receiverCode
        shipperCode := r.shipperCode
        receiverCode := r.receiverCode
        tripNumber := n
        load := load
        distances := mkDistances dist sp rp
        timing := mkTiming params.loadUnloadRate params.speed load (mkDistances dist sp rp)
        schedule := mkSchedule params.speed (mkDistances dist sp rp)
          (mkTiming params.loadUnloadRate params.speed load (mkDistances dist sp rp))
          ((selectVehicle st'.vehicles
            (mkTiming params.loadUnloadRate params.speed load (mkDistances dist sp rp)).total
            params.workdayLength).1.getD (selectVehicle st'.vehicles
            (mkTiming params.loadUnloadRate params.speed load (mkDistances dist sp rp)).total
            params.workdayLength).2 (createVehicle 0)).availableTime
        vehicleId := ((selectVehicle st'.vehicles
            (mkTiming params.loadUnloadRate params.speed load (mkDistances dist sp rp)).total
            params.workdayLength).1.getD (selectVehicle st'.vehicles
            (mkTiming params.loadUnloadRate params.speed load (mkDistances dist sp rp)).total
            params.workdayLength).2 (createVehicle 0)).id
        warnings := tripWarnings r.workingHours params.workdayLength
          (mkSchedule params.speed (mkDistances dist sp rp)
            (mkTiming params.loadUnloadRate params.speed load (mkDistances dist sp rp))
            ((selectVehicle st'.vehicles
              (mkTiming params.loadUnloadRate params.speed load (mkDistances dist sp rp)).total
              params.workdayLength).1.getD (selectVehicle st'.vehicles
              (mkTiming params.loadUnloadRate params.speed load (mkDistances dist sp rp)).total
              params.workdayLength).2 (createVehicle 0)).availableTime)
          (mkTiming params.loadUnloadRate params.speed load (mkDistances dist sp rp)) } := by
    unfold eraseTripId
    simp only [TripPlan.mk.injEq]
    rw [havail, hid]
    simp
  rw [BuildState.mk.injEq]
  constructor
  · rw [htrip, hveh, hsel1, hsel2]
  · rw [hT, htrip]

theorem chunkFold_erase (g g' : ℕ → String)
    (dist : GridPoint → GridPoint → ℚ) (params : PlannerParameters)
    (r : RequestInput) (sp rp : GridPoint) :
    ∀ (chunks : List ℚ) (n : ℕ) (st st' : BuildState),
      eraseStateIds st = eraseStateIds st' →
      eraseStateIds ((List.enumFrom n chunks).foldl
        (fun s p => processChunk g dist params r sp rp s (p.1 + 1) p.2) st) =
      eraseStateIds ((List.enumFrom n chunks).foldl
        (fun s p => processChunk g' dist params r sp rp s (p.1 + 1) p.2) st') := by
  intro chunks
  induction chunks with
  | nil =>
    intro n st st' h
    simpa using h
  | cons c cs ih =>
    intro n st st' h
    rw [List.enumFrom_cons, List.foldl_cons, List.foldl_cons]
    exact ih (n + 1) _ _ (processChunk_erase g g' dist params r sp rp st st' h (n + 1) c)

theorem processRequest_erase (g g' : ℕ → String)
    (dist : GridPoint → GridPoint → ℚ) (params : PlannerParameters)
    (r : RequestInput) (st st' : BuildState)
    (h : eraseStateIds st = eraseStateIds st') :
    eraseStateIds (processRequest g dist params st r) =
      eraseStateIds (processRequest g' dist params st' r) := by
  rw [processRequest, processRequest]
  cases hsp : parseGridCode r.shipperCode with
  | none => exact h
  | some sp =>
    cases hrp : parseGridCode r.receiverCode with
    | none => exact h
    | some rp =>
      rw [List.enum_eq_enumFrom]
      exact chunkFold_erase g g' dist params r sp rp _ 0 st st' h

theorem requestFold_erase (g g' : ℕ → String)
    (dist : GridPoint → GridPoint → ℚ) (params : PlannerParameters) :
    ∀ (reqs : List RequestInput) (st st' : BuildState),
      eraseStateIds st = eraseStateIds st' →
      eraseStateIds (reqs.foldl (processRequest g dist params) st) =
        eraseStateIds (reqs.foldl (processRequest g' dist params) st') := by
  intro reqs
  induction reqs with
  | nil =>
    intro st st' h
    exact h
  | cons r rs ih =>
    intro st st' h
    rw [List.foldl_cons, List.foldl_cons]
    exact ih _ _ (processRequest_erase g g' dist params r st st' h)

theorem map_trips_eq_of_erase {α : Type _} (f : TripPlan → α)
    (hf : ∀ t, f (eraseTripId t) = f t) (l l' : List TripPlan)
    (h : l.map eraseTripId = l'.map eraseTripId) : l.map f = l'.map f := by
  have h1 : l.map f = (l.map eraseTripId).map f := by
    rw [List.map_map]
    exact (List.map_congr_left (fun t _ => (hf t).symm))
  have h2 : l'.map f = (l'.map eraseTripId).map f := by
    rw [List.map_map]
    exact (List.map_congr_left (fun t _ => (hf t).symm))
  rw [h1, h2, h]

/-- C2 corrected (amended): `buildPlan` is deterministic in everything
except the trips' generated `id` fields (drawn from `crypto.randomUUID`):
for a fixed input, two invocations with any two uuid supplies agree on the
whole `PlanResult` once each trip's `id` is erased — in particular the
summary and the error list are identical as they stand. -/
theorem c2_determinism_up_to_trip_ids (g g' : ℕ → String)
    (dist : GridPoint → GridPoint → ℚ) (requests : List RequestInput)
    (params : PlannerParameters) :
    erasePlanIds (buildPlan g dist requests params) =
      erasePlanIds (buildPlan g' dist requests params) ∧
    (buildPlan g dist requests params).summary =
      (buildPlan g' dist requests params).summary ∧
    (buildPlan g dist requests params).errors =
      (buildPlan g' dist requests params).errors := by
  have hstate := requestFold_erase g g' dist params (sanitizedRequests requests)
    { vehicles := [], trips := [] } { vehicles := [], trips := [] } rfl
  have hT : ((sanitizedRequests requests).foldl (processRequest g dist params)
        { vehicles := [], trips := [] }).trips.map eraseTripId =
      ((sanitizedRequests requests).foldl (processRequest g' dist params)
        { vehicles := [], trips := [] }).trips.map eraseTripId :=
    congrArg BuildState.trips hstate
  have hE : ((sanitizedRequests requests).foldl (processRequest g dist params)
        { vehicles := [], trips := [] }).vehicles.map eraseVehicleTripIds =
      ((sanitizedRequests requests).foldl (processRequest g' dist params)
        { vehicles := [], trips := [] }).vehicles.map eraseVehicleTripIds :=
    congrArg BuildState.vehicles hstate
  have hlenT : ((sanitizedRequests requests).foldl (processRequest g dist params)
        { vehicles := [], trips := [] }).trips.length =
      ((sanitizedRequests requests).foldl (processRequest g' dist params)
        { vehicles := [], trips := [] }).trips.length := by
    have := congrArg List.length hT
    simpa using this
  have hlenE : ((sanitizedRequests requests).foldl (processRequest g dist params)
        { vehicles := [], trips := [] }).vehicles.length =
      ((sanitizedRequests requests).foldl (processRequest g' dist params)
        { vehicles := [], trips := [] }).vehicles.length := by
    have := congrArg List.length hE
    simpa using this
  have hdt := map_trips_eq_of_erase (fun t => t.distances.total) (fun t => rfl) _ _ hT
  have hdr := map_trips_eq_of_erase (fun t => t.distances.toReceiver) (fun t => rfl) _ _ hT
  have htt := map_trips_eq_of_erase (fun t => t.timing.total) (fun t => rfl) _ _ hT
  have hmax : ((sanitizedRequests requests).foldl (processRequest g dist params)
        { vehicles := [], trips := [] }).trips.foldl
        (fun acc t => max acc t.schedule.endTime) 0 =
      ((sanitizedRequests requests).foldl (processRequest g' dist params)
        { vehicles := [], trips := [] }).trips.foldl
        (fun acc t => max acc t.schedule.endTime) 0 := by
    have h1 : ∀ l : List TripPlan,
        l.foldl (fun acc t => max acc t.schedule.endTime) 0 =
          (l.map eraseTripId).foldl (fun acc t => max acc t.schedule.endTime) 0 := by
      intro l
      rw [List.foldl_map]
      rfl
    rw [h1 ((sanitizedRequests requests).foldl (processRequest g dist params)
      { vehicles := [], trips := [] }).trips, hT, ← h1]
  have hsummary : (buildPlan g dist requests params).summary =
      (buildPlan g' dist requests params).summary := by
    show PlanSummary.mk _ _ _ _ _ _ _ _ _ = PlanSummary.mk _ _ _ _ _ _ _ _ _
    rw [PlanSummary.mk.injEq]
    refine ⟨by rw [hlenT], rfl, by rw [hdt], by rw [hdr], by rw [hdt, hdr],
      by rw [hdt, hdr], by rw [htt], by rw [hmax], by simp [hlenE]⟩
  have hvehicles : (buildPlan g dist requests params).vehicles.map
        eraseScheduleTripIds =
      (buildPlan g' dist requests params).vehicles.map eraseScheduleTripIds := by
    show (List.map _ (List.map _ _)) = (List.map _ (List.map _ _))
    rw [List.map_map, List.map_map]
    have hcomp : (eraseScheduleTripIds ∘ fun (v : VehicleState) =>
        ({ vehicleId := v.id, trips := v.trips, totalDistance := v.totalDistance,
           totalTime := v.totalTime } : VehicleSchedule)) =
        (fun (v : VehicleState) =>
          ({ vehicleId := v.id, trips := v.trips.map eraseTripId,
             totalDistance := v.totalDistance,
             totalTime := v.totalTime } : VehicleSchedule)) := by
      funext v
      rfl
    rw [hcomp]
    have hsplit : (fun (v : VehicleState) =>
        ({ vehicleId := v.id, trips := v.trips.map eraseTripId,
           totalDistance := v.totalDistance,
           totalTime := v.totalTime } : VehicleSchedule)) =
        ((fun (v : VehicleState) =>
          ({ vehicleId := v.id, trips := v.trips, totalDistance := v.totalDistance,
             totalTime := v.totalTime } : VehicleSchedule)) ∘ eraseVehicleTripIds) := by
      funext v
      rfl
    rw [hsplit, ← List.map_map, ← List.map_map, hE]
  refine ⟨?_, hsummary, rfl⟩
  unfold erasePlanIds
  rw [PlanResult.mk.injEq]
  exact ⟨hT, hvehicles, hsummary, rfl⟩

/-- Counterexample to C2 as stated: the trip `id` field comes from
`crypto.randomUUID`, so two invocations (modelled by two different uuid
supplies) do not produce field-for-field identical `PlanResult` values. -/
theorem c2_determinism_counterexample :
    buildPlan (fun k => "uuid-a-" ++ toString k) (manhattanDistance 4)
      [{ id := "r1", shipperCode := "B3", receiverCode := "E2", volume := 2,
         workingHours := 24 }] defaultParameters ≠
    buildPlan (fun k => "uuid-b-" ++ toString k) (manhattanDistance 4)
      [{ id := "r1", shipperCode := "B3", receiverCode := "E2", volume := 2,
         workingHours := 24 }] defaultParameters := by
  with_unfolding_all decide

end LightTrack
